import Mathlib

/-!
Verification development for the ElectriScribe electrical-system analysis
engine (`electrical_system_analyzer.py`).

The Python module is embedded shallowly:

* Python floats are modelled as exact rationals (`ℚ`); decimal literals of the
  source appear verbatim (`3.07`, `0.91`, ...) and denote the same numbers
  exactly.
* Python dicts are modelled as association lists with insertion-order
  semantics: assignment updates the first (unique) entry in place or appends a
  fresh key at the end, deletion removes the entry, iteration follows list
  order.  This matches CPython dict behaviour.
* Operations that can raise (`ValueError` on an unknown wire size or a failed
  `list.index`, `ZeroDivisionError`) return `Option`; `none` is a propagated
  exception.  Checked division is `fdiv`.
* `math.sqrt` is modelled by `sqrtQ`, a rational square root that is exact on
  perfect squares; every concrete input evaluated below feeds it a perfect
  square (sums of squares chosen accordingly), and no general theorem depends
  on its values elsewhere.
* The `try/finally` bodies of `validate_system_constraints` and
  `generate_integration_report` are modelled by computing the result on the
  grafted state and applying `release_candidate` to that same grafted state
  unconditionally, which is exactly what `finally` guarantees.
* The nondeterministic `analysis_timestamp` field of the report dict is the
  one field not modelled; no property concerns it.
-/

set_option maxRecDepth 8000

set_option allowUnsafeReducibility true

attribute [local semireducible] Rat.add Rat.mul Rat.sub Rat.div Rat.inv Rat.neg Rat.blt Rat.normalize Rat.ofScientific

/-! ## Data model (dataclasses and enums of the source) -/

inductive CircuitType where
  | BRANCH | FEEDER | SERVICE | SUBPANEL
deriving DecidableEq

inductive LoadType where
  | RESISTIVE | MOTOR | ELECTRONIC | LIGHTING | HVAC | CRITICAL
deriving DecidableEq

inductive ProtectionType where
  | BREAKER | FUSE | GFCI | AFCI
deriving DecidableEq

/-- `WireProperties`: AWG wire specifications and ampacity ratings. -/
structure WireProperties where
  awg_size : String
  diameter_mils : ℚ
  area_cmil : ℚ
  resistance_ohm_per_kft : ℚ
  ampacity_60c : ℚ
  ampacity_75c : ℚ
  ampacity_90c : ℚ
deriving DecidableEq

/-- `LoadData`: individual electrical load specification.  `harmonic_content`
is a dict keyed by harmonic order, `operating_schedule` a 24-hour profile. -/
structure LoadData where
  load_id : String
  load_type : LoadType
  nominal_voltage : ℚ
  nominal_current : ℚ
  nominal_power : ℚ
  power_factor : ℚ
  starting_current_multiplier : ℚ
  diversity_factor : ℚ
  critical_load : Bool
  harmonic_content : List (Nat × ℚ)
  operating_schedule : List ℚ
deriving DecidableEq

/-- `ProtectionDevice`: circuit protection device specification. -/
structure ProtectionDevice where
  device_id : String
  protection_type : ProtectionType
  current_rating : ℚ
  voltage_rating : ℚ
  interrupting_rating : ℚ
  trip_curve_type : String
  instantaneous_trip_multiplier : ℚ
  time_delay_characteristics : List (String × ℚ)
deriving DecidableEq

/-- `CircuitData`: electrical circuit specification.  `parent_circuit_id` is
Python's `Optional[str]`; both `None` and `""` are falsy for the hierarchy. -/
structure CircuitData where
  circuit_id : String
  circuit_type : CircuitType
  wire_awg : String
  wire_length_ft : ℚ
  conduit_fill_percentage : ℚ
  ambient_temperature_c : ℚ
  number_of_conductors : ℤ
  voltage_rating : ℚ
  loads : List LoadData
  protection_device : ProtectionDevice
  parent_circuit_id : Option String
deriving DecidableEq

/-- `ThermalAnalysisResult`; `none` for the time-to-limit models Python's
`float('inf')`. -/
structure ThermalAnalysisResult where
  conductor_temperature_c : ℚ
  ampacity_derated : ℚ
  thermal_margin_percent : ℚ
  time_to_thermal_limit_minutes : Option ℚ
  cooling_required : Bool
deriving DecidableEq

/-- `VoltageDropAnalysis`; `recommended_wire_upgrade = none` is Python `None`. -/
structure VoltageDropAnalysis where
  voltage_drop_volts : ℚ
  voltage_drop_percent : ℚ
  voltage_at_load : ℚ
  meets_code_requirements : Bool
  recommended_wire_upgrade : Option String
deriving DecidableEq

/-- `HarmonicAnalysis` results. -/
structure HarmonicAnalysis where
  thd_voltage_percent : ℚ
  thd_current_percent : ℚ
  individual_harmonics : List (Nat × ℚ)
  k_factor_transformers : ℚ
  neutral_current_percent : ℚ
deriving DecidableEq

/-- `SystemConstraintCheck`: one named constraint validation result. -/
structure SystemConstraintCheck where
  constraint_name : String
  current_value : ℚ
  limit_value : ℚ
  margin_percent : ℚ
  passes_check : Bool
  severity_level : String
  recommendation : String
deriving DecidableEq

/-! ## Association-list model of Python dicts -/

/-- Dict read: first entry with the key (keys are unique in states reachable
through `add_circuit`). -/
def alist_lookup {α : Type} : List (String × α) → String → Option α
  | [], _ => none
  | (k, v) :: rest, s => if k = s then some v else alist_lookup rest s

/-- Dict assignment `d[k] = v`: update in place, else append at the end. -/
def dict_insert {α : Type} : List (String × α) → String → α → List (String × α)
  | [], k, v => [(k, v)]
  | (k', v') :: rest, k, v =>
    if k' = k then (k', v) :: rest else (k', v') :: dict_insert rest k v

/-- Dict deletion `del d[k]`. -/
def erase_key {α : Type} : List (String × α) → String → List (String × α)
  | [], _ => []
  | (k', v') :: rest, k => if k' = k then rest else (k', v') :: erase_key rest k

/-- Python `list.remove` wrapped in `try/except ValueError: pass`. -/
def eraseStr : List String → String → List String
  | [], _ => []
  | x :: rest, s => if x = s then rest else x :: eraseStr rest s

/-! ## StandardWireData -/

namespace StandardWireData

/-- The fixed `WIRE_DATA` table of the source, in source order. -/
def WIRE_DATA : List (String × WireProperties) := [
  ("14", ⟨"14", 64.1, 4107, 3.07, 15, 20, 25⟩),
  ("12", ⟨"12", 80.8, 6530, 1.93, 20, 25, 30⟩),
  ("10", ⟨"10", 101.9, 10380, 1.21, 30, 35, 40⟩),
  ("8", ⟨"8", 128.5, 16510, 0.764, 40, 50, 55⟩),
  ("6", ⟨"6", 162.0, 26240, 0.491, 55, 65, 75⟩),
  ("4", ⟨"4", 204.3, 41740, 0.308, 70, 85, 95⟩),
  ("2", ⟨"2", 257.6, 66360, 0.194, 95, 115, 130⟩),
  ("1", ⟨"1", 289.3, 83690, 0.154, 110, 130, 150⟩),
  ("1/0", ⟨"1/0", 325.0, 105600, 0.122, 125, 150, 170⟩),
  ("2/0", ⟨"2/0", 365.0, 133100, 0.0967, 145, 175, 195⟩),
  ("3/0", ⟨"3/0", 409.6, 167800, 0.0766, 165, 200, 225⟩),
  ("4/0", ⟨"4/0", 460.0, 211600, 0.0608, 195, 230, 260⟩),
  ("250", ⟨"250", 500.0, 250000, 0.0515, 215, 255, 290⟩),
  ("300", ⟨"300", 547.0, 300000, 0.0429, 240, 285, 320⟩),
  ("350", ⟨"350", 591.0, 350000, 0.0367, 260, 310, 350⟩),
  ("400", ⟨"400", 632.0, 400000, 0.0321, 280, 335, 380⟩),
  ("500", ⟨"500", 707.0, 500000, 0.0258, 320, 380, 430⟩)]

/-- `get_wire_properties`: dict `.get`, `none` on a missing size. -/
def get_wire_properties (awg_size : String) : Option WireProperties :=
  alist_lookup WIRE_DATA awg_size

/-- `get_ampacity`: returns 0.0 on an unknown size, else selects the
temperature-rating column. -/
def get_ampacity (awg_size : String) (temperature_rating : ℤ) : ℚ :=
  match get_wire_properties awg_size with
  | none => 0.0
  | some wire =>
    if temperature_rating ≤ 60 then wire.ampacity_60c
    else if temperature_rating ≤ 75 then wire.ampacity_75c
    else wire.ampacity_90c

end StandardWireData

/-! ## Load aggregation (`calculate_load_current`) -/

/-- `LoadCurrents`: the dict returned by `calculate_load_current`. -/
structure LoadCurrents where
  continuous_current : ℚ
  non_continuous_current : ℚ
  design_current : ℚ
  motor_starting_peak : ℚ
  harmonic_currents : List (Nat × ℚ)
deriving DecidableEq

/-- Per-load base current: nominal current, optionally scaled by diversity and
by the hourly utilization entry when present. -/
def base_current_of (include_diversity : Bool) (time_of_day_hour : Option ℕ)
    (load : LoadData) : ℚ :=
  let b := load.nominal_current
  let b := if include_diversity then b * load.diversity_factor else b
  match time_of_day_hour with
  | none => b
  | some h =>
    if load.operating_schedule = [] then b
    else if h % 24 < load.operating_schedule.length then
      b * load.operating_schedule.getD (h % 24) 0
    else b

/-- Continuous classification: `critical_load` set, or lighting/electronic. -/
def is_continuous_load (load : LoadData) : Bool :=
  load.critical_load || decide (load.load_type = LoadType.LIGHTING) ||
    decide (load.load_type = LoadType.ELECTRONIC)

/-- `harmonic_currents[order] += amount`, with dict insertion-order upsert. -/
def addHarm : List (Nat × ℚ) → Nat → ℚ → List (Nat × ℚ)
  | [], k, v => [(k, v)]
  | (k', v') :: rest, k, v =>
    if k' = k then (k', v' + v) :: rest else (k', v') :: addHarm rest k v

/-- One iteration of the `calculate_load_current` loop over
(continuous, non-continuous, motor peak, harmonic dict). -/
def load_step (include_diversity : Bool) (hour : Option ℕ)
    (acc : ℚ × ℚ × ℚ × List (Nat × ℚ)) (load : LoadData) :
    ℚ × ℚ × ℚ × List (Nat × ℚ) :=
  let base_current := base_current_of include_diversity hour load
  let total_continuous := if is_continuous_load load then acc.1 + base_current else acc.1
  let total_non_continuous := if is_continuous_load load then acc.2.1 else acc.2.1 + base_current
  let total_motor :=
    if load.load_type = LoadType.MOTOR then
      max acc.2.2.1 (base_current * load.starting_current_multiplier)
    else acc.2.2.1
  let harmonics :=
    load.harmonic_content.foldl (fun hc p => addHarm hc p.1 (base_current * p.2)) acc.2.2.2
  (total_continuous, total_non_continuous, total_motor, harmonics)

/-- `calculate_load_current` with the NEC 125% rule for continuous loads. -/
def calculate_load_current (loads : List LoadData) (include_diversity : Bool)
    (time_of_day_hour : Option ℕ) : LoadCurrents :=
  let r := loads.foldl (load_step include_diversity time_of_day_hour) (0, 0, 0, [])
  { continuous_current := r.1
    non_continuous_current := r.2.1
    design_current := r.1 * 1.25 + r.2.1
    motor_starting_peak := r.2.2.1
    harmonic_currents := r.2.2.2 }

/-! ## Thermal analysis -/

/-- Checked division: Python raises `ZeroDivisionError` on a zero divisor. -/
def fdiv (a b : ℚ) : Option ℚ := if b = 0 then none else some (a / b)

/-- `_get_temperature_correction_factor` breakpoint table, in dict order. -/
def temp_factor_table : List (ℚ × ℚ) :=
  [(21, 1.08), (26, 1.00), (31, 0.91), (36, 0.82), (41, 0.71), (46, 0.58), (51, 0.41), (56, 0.00)]

/-- Python `min(keys, key=abs distance)`: first key of minimal distance. -/
def closest_temp_entry (ambient_temp_c : ℚ) : ℚ × ℚ :=
  temp_factor_table.foldl
    (fun best cur => if |cur.1 - ambient_temp_c| < |best.1 - ambient_temp_c| then cur else best)
    (21, 1.08)

def temperature_correction_factor (ambient_temp_c : ℚ) : ℚ :=
  (closest_temp_entry ambient_temp_c).2

/-- `_get_conduit_fill_correction_factor` (the fill percentage is unused by
the source, as here). -/
def conduit_fill_correction_factor (num_conductors : ℤ) (_fill_percent : ℚ) : ℚ :=
  if num_conductors ≤ 3 then 1.00
  else if num_conductors ≤ 6 then 0.80
  else if num_conductors ≤ 9 then 0.70
  else if num_conductors ≤ 20 then 0.50
  else 0.35

/-- `analyze_thermal_performance`.  The two divisions by the derated ampacity
and the overload time constant are checked; the config values used are the
constants `75` (rating), `0.75` (thermal safety margin). -/
def analyze_thermal_performance (circuit : CircuitData) : Option ThermalAnalysisResult :=
  match StandardWireData.get_wire_properties circuit.wire_awg with
  | none => none
  | some _wire_props =>
    let base_ampacity := StandardWireData.get_ampacity circuit.wire_awg 75
    let temp_correction := temperature_correction_factor circuit.ambient_temperature_c
    let fill_correction :=
      conduit_fill_correction_factor circuit.number_of_conductors circuit.conduit_fill_percentage
    let derated_ampacity := base_ampacity * temp_correction * fill_correction
    let design_current := (calculate_load_current circuit.loads true none).design_current
    match fdiv design_current derated_ampacity with
    | none => none
    | some rcur =>
      let conductor_temp :=
        circuit.ambient_temperature_c + (75 - circuit.ambient_temperature_c) * rcur ^ 2
      match fdiv (derated_ampacity - design_current) derated_ampacity with
      | none => none
      | some mfrac =>
        let time_to_limit : Option (Option ℚ) :=
          if derated_ampacity < design_current then
            match fdiv 1.0 (rcur ^ 2 - 1.0) with
            | none => none
            | some tinv => some (some (tinv * 5.0))
          else some none
        match time_to_limit with
        | none => none
        | some t =>
          some { conductor_temperature_c := conductor_temp
                 ampacity_derated := derated_ampacity
                 thermal_margin_percent := mfrac * 100
                 time_to_thermal_limit_minutes := t
                 cooling_required := decide (derated_ampacity * 0.75 < design_current) }

/-! ## Voltage-drop analysis -/

/-- The fixed upgrade ladder of `_recommend_wire_upgrade` (note: it stops at
"4/0"; the wire table continues to "500"). -/
def wire_sizes : List String :=
  ["14", "12", "10", "8", "6", "4", "2", "1", "1/0", "2/0", "3/0", "4/0"]

/-- Python `list.index`: `none` models the raised `ValueError`. -/
def list_index : List String → String → Option Nat
  | [], _ => none
  | x :: rest, s => if x = s then some 0 else (list_index rest s).map (· + 1)

/-- The search loop of `_recommend_wire_upgrade` over the remaining ladder;
falls through to the engineer-review sentinel. -/
def upgrade_search (circuit : CircuitData) (design_current : ℚ) :
    List String → Option String
  | [] => some "Consult engineer - may need voltage upgrade"
  | test_size :: rest =>
    match StandardWireData.get_wire_properties test_size with
    | none => upgrade_search circuit design_current rest
    | some test_wire =>
      let test_resistance :=
        test_wire.resistance_ohm_per_kft / 1000.0 * circuit.wire_length_ft * 2
      let test_vd := design_current * test_resistance
      match fdiv test_vd circuit.voltage_rating with
      | none => none
      | some frac =>
        if frac * 100 ≤ 3.0 then some test_size
        else upgrade_search circuit design_current rest

/-- `_recommend_wire_upgrade` (the passed current voltage-drop percent is
unused by the source, as here). -/
def recommend_wire_upgrade (circuit : CircuitData)
    (design_current _current_vd_percent : ℚ) : Option String :=
  match list_index wire_sizes circuit.wire_awg with
  | none => none
  | some current_index =>
    upgrade_search circuit design_current (wire_sizes.drop (current_index + 1))

/-- `analyze_voltage_drop`; the configured limit is the constant `3.0`. -/
def analyze_voltage_drop (circuit : CircuitData) : Option VoltageDropAnalysis :=
  match StandardWireData.get_wire_properties circuit.wire_awg with
  | none => none
  | some wire_props =>
    let design_current := (calculate_load_current circuit.loads true none).design_current
    let resistance_per_ft := wire_props.resistance_ohm_per_kft / 1000.0
    let total_resistance := resistance_per_ft * circuit.wire_length_ft * 2
    let voltage_drop := design_current * total_resistance
    match fdiv voltage_drop circuit.voltage_rating with
    | none => none
    | some vd_frac =>
      let voltage_drop_percent := vd_frac * 100
      let voltage_at_load := circuit.voltage_rating - voltage_drop
      if voltage_drop_percent ≤ 3.0 then
        some { voltage_drop_volts := voltage_drop
               voltage_drop_percent := voltage_drop_percent
               voltage_at_load := voltage_at_load
               meets_code_requirements := true
               recommended_wire_upgrade := none }
      else
        match recommend_wire_upgrade circuit design_current voltage_drop_percent with
        | none => none
        | some upgrade =>
          some { voltage_drop_volts := voltage_drop
                 voltage_drop_percent := voltage_drop_percent
                 voltage_at_load := voltage_at_load
                 meets_code_requirements := false
                 recommended_wire_upgrade := some upgrade }

/-! ## Harmonic analysis -/

/-- Largest natural whose square does not exceed `n` (kernel-computable). -/
def natSqrtLin (n : ℕ) : ℕ :=
  ((List.range (n + 1)).filter (fun k => k * k ≤ n)).foldr max 0

/-- Rational model of `math.sqrt`; exact on perfect squares, which are the
only inputs whose value any statement below inspects (THD arguments are sums
of squares chosen to be perfect squares at every evaluated input). -/
def sqrtQ (q : ℚ) : ℚ := (natSqrtLin q.num.toNat : ℚ) / (natSqrtLin q.den : ℚ)

/-- The accumulation loop of `analyze_harmonic_distortion`: fundamental
current and per-order harmonic dict. -/
def harmonic_loop (circuit_loads : List LoadData) : ℚ × List (Nat × ℚ) :=
  circuit_loads.foldl
    (fun acc load =>
      (acc.1 + load.nominal_current,
       load.harmonic_content.foldl
         (fun hc p => addHarm hc p.1 (load.nominal_current * p.2)) acc.2))
    (0, [])

/-- The k-factor summation; each term divides by the fundamental, which the
source does not guard (unlike the THD and neutral computations). -/
def k_factor_sum (fundamental : ℚ) : List (Nat × ℚ) → Option ℚ
  | [] => some 0
  | (harmonic_order, current) :: rest =>
    match fdiv current fundamental with
    | none => none
    | some frac =>
      match k_factor_sum fundamental rest with
      | none => none
      | some s => some ((harmonic_order : ℚ) ^ 2 * frac ^ 2 + s)

/-- `analyze_harmonic_distortion`. -/
def analyze_harmonic_distortion (circuit_loads : List LoadData) : Option HarmonicAnalysis :=
  let fundamental_current := (harmonic_loop circuit_loads).1
  let harmonic_currents := (harmonic_loop circuit_loads).2
  let total_harmonic_power := harmonic_currents.foldl (fun a p => a + p.2 ^ 2) 0
  let thd_current :=
    if 0 < fundamental_current then sqrtQ total_harmonic_power / fundamental_current * 100 else 0
  let thd_voltage := thd_current * 0.1
  match k_factor_sum fundamental_current harmonic_currents with
  | none => none
  | some ksum =>
    let neutral_current :=
      harmonic_currents.foldl (fun a p => if p.1 % 3 = 0 then a + p.2 else a) 0
    let neutral_current_percent :=
      if 0 < fundamental_current then neutral_current / fundamental_current * 100 else 0
    some { thd_voltage_percent := thd_voltage
           thd_current_percent := thd_current
           individual_harmonics := harmonic_currents
           k_factor_transformers := 1.0 + ksum
           neutral_current_percent := neutral_current_percent }

/-! ## The validator state machine -/

/-- The mutable state of `ElectricalSystemAnalyzer`: the circuit registry and
the parent-to-children hierarchy index. -/
structure AnalyzerState where
  circuits : List (String × CircuitData)
  system_hierarchy : List (String × List String)
deriving DecidableEq

/-- The empty analyzer constructed by `__init__`. -/
def emptyAnalyzer : AnalyzerState := { circuits := [], system_hierarchy := [] }

/-- `hierarchy.setdefault(p, []).append(cid)` as the source writes it. -/
def hier_add : List (String × List String) → String → String → List (String × List String)
  | [], p, cid => [(p, [cid])]
  | (k, v) :: rest, p, cid =>
    if k = p then (k, v ++ [cid]) :: rest else (k, v) :: hier_add rest p cid

/-- `hierarchy[p].remove(cid)` guarded by `except ValueError: pass`. -/
def hier_remove : List (String × List String) → String → String → List (String × List String)
  | [], _, _ => []
  | (k, v) :: rest, p, cid =>
    if k = p then (k, eraseStr v cid) :: rest else (k, v) :: hier_remove rest p cid

/-- `add_circuit`: register the circuit; index it under its parent when the
parent id is truthy (neither `None` nor the empty string). -/
def add_circuit (st : AnalyzerState) (circuit : CircuitData) : AnalyzerState :=
  { circuits := dict_insert st.circuits circuit.circuit_id circuit
    system_hierarchy :=
      match circuit.parent_circuit_id with
      | none => st.system_hierarchy
      | some p =>
        if p = "" then st.system_hierarchy
        else hier_add st.system_hierarchy p circuit.circuit_id }

/-- The `finally` block shared by `validate_system_constraints` and
`generate_integration_report`: delete the candidate from the registry, and
remove one occurrence of its id from its parent's child list when the parent
is a hierarchy key. -/
def release_candidate (g : AnalyzerState) (new_circuit : CircuitData) : AnalyzerState :=
  if (alist_lookup g.circuits new_circuit.circuit_id).isSome then
    { circuits := erase_key g.circuits new_circuit.circuit_id
      system_hierarchy :=
        match new_circuit.parent_circuit_id with
        | none => g.system_hierarchy
        | some p =>
          if (alist_lookup g.system_hierarchy p).isSome then
            hier_remove g.system_hierarchy p new_circuit.circuit_id
          else g.system_hierarchy }
  else g

/-! ### The four constraint checks -/

/-- Check 1, "Conductor Ampacity" (minimum margin config constant `20.0`). -/
def ampacity_check (new_circuit : CircuitData) (thermal_result : ThermalAnalysisResult) :
    SystemConstraintCheck :=
  { constraint_name := "Conductor Ampacity"
    current_value := thermal_result.ampacity_derated
    limit_value := (calculate_load_current new_circuit.loads true none).design_current
    margin_percent := thermal_result.thermal_margin_percent
    passes_check := decide (20.0 < thermal_result.thermal_margin_percent)
    severity_level :=
      if thermal_result.thermal_margin_percent < 0 then "critical"
      else if thermal_result.thermal_margin_percent < 20.0 then "warning"
      else "info"
    recommendation :=
      if thermal_result.thermal_margin_percent < 20.0 then "Increase wire size or reduce load"
      else "Adequate thermal margin" }

/-- Check 2, "Voltage Drop" (limit config constant `3.0`).  The
recommendation interpolates the upgrade string when it is truthy. -/
def voltage_check (voltage_result : VoltageDropAnalysis) : SystemConstraintCheck :=
  { constraint_name := "Voltage Drop"
    current_value := voltage_result.voltage_drop_percent
    limit_value := 3.0
    margin_percent := (3.0 - voltage_result.voltage_drop_percent) / 3.0 * 100
    passes_check := voltage_result.meets_code_requirements
    severity_level := if voltage_result.meets_code_requirements then "info" else "critical"
    recommendation :=
      match voltage_result.recommended_wire_upgrade with
      | some upgrade =>
        if upgrade = "" then "Voltage drop acceptable" else "Upgrade to " ++ upgrade
      | none => "Voltage drop acceptable" }

/-- Check 4, "Current THD" (limit config constant `20.0`). -/
def thd_check (harmonic_result : HarmonicAnalysis) : SystemConstraintCheck :=
  { constraint_name := "Current THD"
    current_value := harmonic_result.thd_current_percent
    limit_value := 20.0
    margin_percent := (20.0 - harmonic_result.thd_current_percent) / 20.0 * 100
    passes_check := decide (harmonic_result.thd_current_percent ≤ 20.0)
    severity_level :=
      if 20.0 < harmonic_result.thd_current_percent then "warning" else "info"
    recommendation :=
      if 20.0 < harmonic_result.thd_current_percent then "Consider harmonic filtering"
      else "Harmonic levels acceptable" }

/-- Concatenation of the loads of the listed child circuits, skipping ids not
in the registry (`circuits.get`). -/
def gather_child_loads (circuits : List (String × CircuitData)) : List String → List LoadData
  | [] => []
  | child_id :: rest =>
    (match alist_lookup circuits child_id with
     | some child_circuit => child_circuit.loads
     | none => []) ++ gather_child_loads circuits rest

/-- Check 3, "Parent Circuit Loading" (loading limit config constant `80.0`):
aggregate every current child's loads and compare against the parent's
derated ampacity from its thermal analysis. -/
def parent_loading_check (g : AnalyzerState) (p : String) (parent_circuit : CircuitData) :
    Option SystemConstraintCheck :=
  let child_circuit_ids := (alist_lookup g.system_hierarchy p).getD []
  let all_child_loads := gather_child_loads g.circuits child_circuit_ids
  let parent_load_analysis := calculate_load_current all_child_loads true none
  match analyze_thermal_performance parent_circuit with
  | none => none
  | some parent_thermal =>
    match fdiv parent_load_analysis.design_current parent_thermal.ampacity_derated with
    | none => none
    | some lfrac =>
      let parent_loading_percent := lfrac * 100
      some { constraint_name := "Parent Circuit Loading"
             current_value := parent_loading_percent
             limit_value := 80.0
             margin_percent := 80.0 - parent_loading_percent
             passes_check := decide (parent_loading_percent ≤ 80.0)
             severity_level :=
               if 100 < parent_loading_percent then "critical"
               else if 80.0 < parent_loading_percent then "warning"
               else "info"
             recommendation :=
               if 80.0 < parent_loading_percent then "Upgrade parent circuit or redistribute loads"
               else "Parent circuit adequate" }

/-- The conditional third check: emitted only when the candidate's parent id
is truthy and registered. -/
def parent_constraints (g : AnalyzerState) (new_circuit : CircuitData) :
    Option (List SystemConstraintCheck) :=
  match new_circuit.parent_circuit_id with
  | none => some []
  | some p =>
    if p = "" then some []
    else
      match alist_lookup g.circuits p with
      | none => some []
      | some parent_circuit =>
        match parent_loading_check g p parent_circuit with
        | none => none
        | some ck => some [ck]

/-- The `try` body of `validate_system_constraints`, evaluated on the grafted
state; a `none` anywhere is a raised analyzer error that aborts the list. -/
def validate_core (g : AnalyzerState) (new_circuit : CircuitData) :
    Option (List SystemConstraintCheck) :=
  match analyze_thermal_performance new_circuit with
  | none => none
  | some thermal_result =>
    match analyze_voltage_drop new_circuit with
    | none => none
    | some voltage_result =>
      match parent_constraints g new_circuit with
      | none => none
      | some parentCks =>
        match analyze_harmonic_distortion new_circuit.loads with
        | none => none
        | some harmonic_result =>
          some ([ampacity_check new_circuit thermal_result, voltage_check voltage_result] ++
            parentCks ++ [thd_check harmonic_result])

/-- `validate_system_constraints`: graft, evaluate, and release on every exit
path (the release applies to the grafted state whether or not the body
raised, exactly as `try/finally` does). -/
def validate_system_constraints (st : AnalyzerState) (new_circuit : CircuitData) :
    Option (List SystemConstraintCheck) × AnalyzerState :=
  let g := add_circuit st new_circuit
  (validate_core g new_circuit, release_candidate g new_circuit)

/-! ## Integration report -/

/-- One entry of `required_modifications`. -/
structure RequiredModification where
  modification_type : String
  description : String
  priority : String
deriving DecidableEq

/-- Substring test on character lists (Python's `in` on strings). -/
def chars_lead : List Char → List Char → Bool
  | [], _ => true
  | _ :: _, [] => false
  | a :: arest, b :: brest => a = b && chars_lead arest brest

def chars_within (pat : List Char) : List Char → Bool
  | [] => chars_lead pat []
  | b :: brest => chars_lead pat (b :: brest) || chars_within pat brest

def str_within (pat s : String) : Bool := chars_within pat.toList s.toList

/-- `_generate_recommendations`: one line per failing check. -/
def generate_recommendations (constraints : List SystemConstraintCheck) : List String :=
  (constraints.filter (fun ck => !ck.passes_check)).map
    (fun ck => ck.constraint_name ++ ": " ++ ck.recommendation)

/-- `_generate_required_modifications` over the critical checks. -/
def generate_required_modifications (constraints : List SystemConstraintCheck) :
    List RequiredModification :=
  (constraints.filter (fun ck => decide (ck.severity_level = "critical"))).filterMap
    (fun ck =>
      if str_within "Conductor Ampacity" ck.constraint_name then
        some ⟨"wire_upgrade", "Increase conductor size to handle load", "high"⟩
      else if str_within "Voltage Drop" ck.constraint_name then
        some ⟨"wire_upgrade_or_voltage_increase",
          "Reduce circuit resistance or increase supply voltage", "high"⟩
      else if str_within "Parent Circuit" ck.constraint_name then
        some ⟨"panel_upgrade", "Upgrade parent circuit or redistribute loads", "high"⟩
      else none)

/-- `_assess_implementation_risk`. -/
def assess_implementation_risk (constraints : List SystemConstraintCheck) : String :=
  let critical_count := (constraints.filter (fun ck => decide (ck.severity_level = "critical"))).length
  let warning_count := (constraints.filter (fun ck => decide (ck.severity_level = "warning"))).length
  if 2 < critical_count then "HIGH"
  else if 0 < critical_count || 3 < warning_count then "MEDIUM"
  else "LOW"

/-- The report dict of `generate_integration_report`, flattened (the
nondeterministic timestamp field is not modelled). -/
structure IntegrationReport where
  circuit_id : String
  overall_status : String
  constraint_checks : List SystemConstraintCheck
  thermal_analysis : ThermalAnalysisResult
  voltage_analysis : VoltageDropAnalysis
  harmonic_analysis : HarmonicAnalysis
  load_analysis : LoadCurrents
  recommendations : List String
  required_modifications : List RequiredModification
  affects_parent_circuit : Bool
  critical_issues_count : ℕ
  warnings_count : ℕ
  estimated_implementation_risk : String
deriving DecidableEq

/-- `generate_integration_report`: validate (with its own graft/release),
re-graft for the detailed analyses, and release again in `finally`. -/
def generate_integration_report (st : AnalyzerState) (new_circuit : CircuitData) :
    Option IntegrationReport × AnalyzerState :=
  let pr := validate_system_constraints st new_circuit
  match pr.1 with
  | none => (none, pr.2)
  | some constraints =>
    let g := add_circuit pr.2 new_circuit
    let rep : Option IntegrationReport :=
      match analyze_thermal_performance new_circuit, analyze_voltage_drop new_circuit,
          analyze_harmonic_distortion new_circuit.loads with
      | some thermal_analysis, some voltage_analysis, some harmonic_analysis =>
        let critical_issues :=
          constraints.filter (fun ck => decide (ck.severity_level = "critical"))
        let warning_issues :=
          constraints.filter (fun ck => decide (ck.severity_level = "warning"))
        some { circuit_id := new_circuit.circuit_id
               overall_status :=
                 if critical_issues ≠ [] then "FAIL"
                 else if warning_issues ≠ [] then "PASS_WITH_WARNINGS"
                 else "PASS"
               constraint_checks := constraints
               thermal_analysis := thermal_analysis
               voltage_analysis := voltage_analysis
               harmonic_analysis := harmonic_analysis
               load_analysis := calculate_load_current new_circuit.loads true none
               recommendations := generate_recommendations constraints
               required_modifications := generate_required_modifications constraints
               affects_parent_circuit := new_circuit.parent_circuit_id.isSome
               critical_issues_count := critical_issues.length
               warnings_count := warning_issues.length
               estimated_implementation_risk := assess_implementation_risk constraints }
      | _, _, _ => none
    (rep, release_candidate g new_circuit)

/-! ## Derived / specification-side definitions used by the statements -/

/-- Sum of a list of rationals, as the accumulation loops of the source. -/
def sumQ (l : List ℚ) : ℚ := l.foldl (· + ·) 0

/-- The keys of a registry are pairwise distinct; every state built through
`add_circuit` from the empty analyzer satisfies this, as every Python dict
does. -/
def keysNodup {α : Type} (l : List (String × α)) : Prop := (l.map Prod.fst).Nodup

instance {α : Type} (l : List (String × α)) : Decidable (keysNodup l) :=
  inferInstanceAs (Decidable (l.map Prod.fst).Nodup)

/-- The circuit id `cid` occurs in no child list of the hierarchy index. -/
def hier_id_free (h : List (String × List String)) (cid : String) : Prop :=
  ∀ q ls, alist_lookup h q = some ls → cid ∉ ls

/-- Specification-side restatement of the ladder test of
`_recommend_wire_upgrade`: the recomputed round-trip voltage-drop percent of
`test_size` meets the 3.0% limit (false on sizes outside the wire table). -/
def ladder_meets (circuit : CircuitData) (design_current : ℚ) (test_size : String) : Bool :=
  match StandardWireData.get_wire_properties test_size with
  | none => false
  | some test_wire =>
    decide (design_current * (test_wire.resistance_ohm_per_kft / 1000.0 *
      circuit.wire_length_ft * 2) / circuit.voltage_rating * 100 ≤ 3.0)

/-- Specification-side statement of the severity policy each emitted check
actually follows, as a function of its own margin.  Only the Conductor
Ampacity check follows the uniform policy claimed by the specification; the
other three use their own rules. -/
def severity_policy_holds (ck : SystemConstraintCheck) : Prop :=
  (ck.constraint_name = "Conductor Ampacity" →
    ck.severity_level = if ck.margin_percent < 0 then "critical"
      else if ck.margin_percent < 20.0 then "warning" else "info") ∧
  (ck.constraint_name = "Voltage Drop" →
    ck.severity_level = if ck.margin_percent < 0 then "critical" else "info") ∧
  (ck.constraint_name = "Parent Circuit Loading" →
    ck.severity_level = if ck.margin_percent < -20.0 then "critical"
      else if ck.margin_percent < 0 then "warning" else "info") ∧
  (ck.constraint_name = "Current THD" →
    ck.severity_level = if ck.margin_percent < 0 then "warning" else "info")

/-! ## Concrete fixtures for witnesses and counterexamples -/

/-- A protection device as in the source's usage example. -/
def protW : ProtectionDevice :=
  { device_id := "CB-101", protection_type := ProtectionType.BREAKER,
    current_rating := 20.0, voltage_rating := 120.0, interrupting_rating := 10000.0,
    trip_curve_type := "C", instantaneous_trip_multiplier := 10.0,
    time_delay_characteristics := [("thermal", 60.0), ("magnetic", 0.5)] }

/-- A plain 10 A resistive load with no harmonic content. -/
def loadA : LoadData :=
  { load_id := "L-A", load_type := LoadType.RESISTIVE, nominal_voltage := 120.0,
    nominal_current := 10.0, nominal_power := 1200.0, power_factor := 1.0,
    starting_current_multiplier := 1.0, diversity_factor := 1.0, critical_load := false,
    harmonic_content := [], operating_schedule := [] }

/-- A healthy parentless 12 AWG branch circuit (all four checks pass). -/
def cW7 : CircuitData :=
  { circuit_id := "BR-7", circuit_type := CircuitType.BRANCH, wire_awg := "12",
    wire_length_ft := 10.0, conduit_fill_percentage := 40.0, ambient_temperature_c := 30.0,
    number_of_conductors := 3, voltage_rating := 120.0, loads := [loadA],
    protection_device := protW, parent_circuit_id := none }

/-- Clone of `cW7` under another id, used for the severity-policy witness. -/
def cW2 : CircuitData :=
  { cW7 with circuit_id := "BR-2" }

/-- Clone of `cW7` under another id, used for the totality witness. -/
def cW3 : CircuitData :=
  { cW7 with circuit_id := "BR-3" }

/-- A 10 A electronic load with 50% third-harmonic content: its THD is
exactly 50%, far above the 20% limit. -/
def loadTHD : LoadData :=
  { load_id := "L-THD", load_type := LoadType.ELECTRONIC, nominal_voltage := 120.0,
    nominal_current := 10.0, nominal_power := 1200.0, power_factor := 0.9,
    starting_current_multiplier := 1.0, diversity_factor := 1.0, critical_load := false,
    harmonic_content := [(3, 0.5)], operating_schedule := [] }

/-- Circuit carrying `loadTHD`; only its THD check fails. -/
def cTHD : CircuitData :=
  { circuit_id := "BR-THD", circuit_type := CircuitType.BRANCH, wire_awg := "12",
    wire_length_ft := 10.0, conduit_fill_percentage := 40.0, ambient_temperature_c := 30.0,
    number_of_conductors := 3, voltage_rating := 120.0, loads := [loadTHD],
    protection_device := protW, parent_circuit_id := none }

/-- In-range circuit at 56 °C ambient: the NEC correction factor is 0.00,
so the derated ampacity is zero. -/
def cT56 : CircuitData :=
  { circuit_id := "BR-56", circuit_type := CircuitType.BRANCH, wire_awg := "12",
    wire_length_ft := 10.0, conduit_fill_percentage := 40.0, ambient_temperature_c := 56.0,
    number_of_conductors := 3, voltage_rating := 120.0, loads := [loadA],
    protection_device := protW, parent_circuit_id := none }

/-- A 16 A resistive load. -/
def load16 : LoadData :=
  { loadA with load_id := "L-16", nominal_current := 16.0, nominal_power := 1920.0 }

/-- A 14 AWG, 200 ft run at 120 V with 16 A: drop 16.37%, needs an upgrade;
the first compliant ladder size is "6". -/
def cU : CircuitData :=
  { circuit_id := "BR-U", circuit_type := CircuitType.BRANCH, wire_awg := "14",
    wire_length_ft := 200.0, conduit_fill_percentage := 40.0, ambient_temperature_c := 30.0,
    number_of_conductors := 3, voltage_rating := 120.0, loads := [load16],
    protection_device := protW, parent_circuit_id := none }

/-- The voltage-drop analysis the source computes for `cU`. -/
def vU : VoltageDropAnalysis :=
  { voltage_drop_volts := 19.648, voltage_drop_percent := 1228/75,
    voltage_at_load := 100.352, meets_code_requirements := false,
    recommended_wire_upgrade := some "6" }

/-- A 20 A resistive load. -/
def load20 : LoadData :=
  { loadA with load_id := "L-20", nominal_current := 20.0, nominal_power := 2400.0 }

/-- A 250 kcmil, 4000 ft run at 120 V drawing 20 A: the drop is 6.87%, over
the limit, and "250" is in the wire table but not in the upgrade ladder. -/
def c250 : CircuitData :=
  { circuit_id := "BR-250", circuit_type := CircuitType.FEEDER, wire_awg := "250",
    wire_length_ft := 4000.0, conduit_fill_percentage := 40.0, ambient_temperature_c := 30.0,
    number_of_conductors := 3, voltage_rating := 120.0, loads := [load20],
    protection_device := protW, parent_circuit_id := none }

/-- A parentless 14 AWG circuit acting as the persisted parent "P". -/
def cParent : CircuitData :=
  { circuit_id := "P", circuit_type := CircuitType.FEEDER, wire_awg := "14",
    wire_length_ft := 10.0, conduit_fill_percentage := 40.0, ambient_temperature_c := 30.0,
    number_of_conductors := 3, voltage_rating := 120.0, loads := [],
    protection_device := protW, parent_circuit_id := none }

/-- A 30 A resistive load: alone it exceeds the derated ampacity of a 14 AWG
parent (18.2 A), driving the parent loading to 164.8%. -/
def loadBig30 : LoadData :=
  { loadA with load_id := "L-30", nominal_current := 30.0, nominal_power := 3600.0 }

/-- Candidate child of "P" that overloads it. -/
def cChild : CircuitData :=
  { circuit_id := "C", circuit_type := CircuitType.BRANCH, wire_awg := "12",
    wire_length_ft := 10.0, conduit_fill_percentage := 40.0, ambient_temperature_c := 30.0,
    number_of_conductors := 3, voltage_rating := 120.0, loads := [loadBig30],
    protection_device := protW, parent_circuit_id := some "P" }

/-- Registry holding only the parent "P". -/
def stP : AnalyzerState := add_circuit emptyAnalyzer cParent

/-- A persisted child of "P" whose id "X" will collide with a candidate. -/
def cX1 : CircuitData :=
  { circuit_id := "X", circuit_type := CircuitType.BRANCH, wire_awg := "12",
    wire_length_ft := 10.0, conduit_fill_percentage := 40.0, ambient_temperature_c := 30.0,
    number_of_conductors := 3, voltage_rating := 120.0, loads := [loadA],
    protection_device := protW, parent_circuit_id := some "P" }

/-- Registry with parent "P" and the persisted child "X" indexed under it. -/
def stC : AnalyzerState := add_circuit (add_circuit emptyAnalyzer cParent) cX1

/-- Registry holding only the parent "P" (fresh-candidate scenario). -/
def stF : AnalyzerState := add_circuit emptyAnalyzer cParent

/-- A parentless circuit with id "X" used for the registry-frame witness. -/
def cXa : CircuitData :=
  { circuit_id := "X", circuit_type := CircuitType.BRANCH, wire_awg := "12",
    wire_length_ft := 10.0, conduit_fill_percentage := 40.0, ambient_temperature_c := 30.0,
    number_of_conductors := 3, voltage_rating := 120.0, loads := [loadA],
    protection_device := protW, parent_circuit_id := none }

/-! # Theorems

General lemmas about the association-list dict model, the aggregation loops
and the state machine come first; the ten claim theorems follow.
-/

/-! ## Association-list lemmas -/

theorem alist_lookup_cons {α : Type} (k' : String) (v' : α) (tl : List (String × α)) (s : String) :
    alist_lookup ((k', v') :: tl) s = if k' = s then some v' else alist_lookup tl s := rfl

theorem dict_insert_cons {α : Type} (k' : String) (v' : α) (tl : List (String × α))
    (k : String) (v : α) :
    dict_insert ((k', v') :: tl) k v =
      if k' = k then (k', v) :: tl else (k', v') :: dict_insert tl k v := rfl

theorem erase_key_cons {α : Type} (k' : String) (v' : α) (tl : List (String × α)) (k : String) :
    erase_key ((k', v') :: tl) k = if k' = k then tl else (k', v') :: erase_key tl k := rfl

theorem alist_lookup_mem {α : Type} {l : List (String × α)} {k : String} {v : α}
    (h : alist_lookup l k = some v) : (k, v) ∈ l := by
  induction l with
  | nil => simp [alist_lookup] at h
  | cons hd tl ih =>
    obtain ⟨k', v'⟩ := hd
    by_cases hk : k' = k
    · subst hk
      simp [alist_lookup] at h
      simp [h]
    · simp [alist_lookup, hk] at h
      exact List.mem_cons_of_mem _ (ih h)

theorem lookup_dict_insert_self {α : Type} (l : List (String × α)) (k : String) (v : α) :
    alist_lookup (dict_insert l k v) k = some v := by
  induction l with
  | nil => simp [dict_insert, alist_lookup]
  | cons hd tl ih =>
    obtain ⟨k', v'⟩ := hd
    by_cases hk : k' = k
    · simp [dict_insert, hk, alist_lookup]
    · simp [dict_insert, hk, alist_lookup, ih]

theorem lookup_dict_insert_ne {α : Type} (l : List (String × α)) (k q : String) (v : α)
    (hq : q ≠ k) : alist_lookup (dict_insert l k v) q = alist_lookup l q := by
  induction l with
  | nil => simp [dict_insert, alist_lookup, Ne.symm hq]
  | cons hd tl ih =>
    obtain ⟨k', v'⟩ := hd
    by_cases hk : k' = k
    · subst hk
      simp [dict_insert, alist_lookup, Ne.symm hq]
    · simp [dict_insert, hk, alist_lookup, ih]

theorem lookup_erase_key_ne {α : Type} (l : List (String × α)) (k q : String)
    (hq : q ≠ k) : alist_lookup (erase_key l k) q = alist_lookup l q := by
  induction l with
  | nil => simp [erase_key]
  | cons hd tl ih =>
    obtain ⟨k', v'⟩ := hd
    by_cases hk : k' = k
    · subst hk
      simp [erase_key, alist_lookup, Ne.symm hq]
    · simp [erase_key, hk, alist_lookup, ih]

theorem lookup_none_of_not_mem_keys {α : Type} {l : List (String × α)} {k : String}
    (h : k ∉ l.map Prod.fst) : alist_lookup l k = none := by
  induction l with
  | nil => simp [alist_lookup]
  | cons hd tl ih =>
    obtain ⟨k', v'⟩ := hd
    rw [List.map_cons, List.mem_cons] at h
    push_neg at h
    simp [alist_lookup, Ne.symm h.1, ih h.2]

theorem lookup_erase_key_self {α : Type} {l : List (String × α)} {k : String}
    (h : keysNodup l) : alist_lookup (erase_key l k) k = none := by
  induction l with
  | nil => simp [erase_key, alist_lookup]
  | cons hd tl ih =>
    obtain ⟨k', v'⟩ := hd
    obtain ⟨hk', htl⟩ := List.nodup_cons.mp h
    by_cases hk : k' = k
    · subst hk
      simp only [erase_key, if_pos rfl]
      exact lookup_none_of_not_mem_keys hk'
    · simp [erase_key, hk, alist_lookup, ih htl]

theorem mem_keys_dict_insert {α : Type} {l : List (String × α)} {k q : String} {v : α}
    (h : q ∈ (dict_insert l k v).map Prod.fst) : q ∈ l.map Prod.fst ∨ q = k := by
  induction l with
  | nil =>
    right
    simpa [dict_insert] using h
  | cons hd tl ih =>
    obtain ⟨k', v'⟩ := hd
    by_cases hk : k' = k
    · subst hk
      rw [dict_insert_cons, if_pos rfl] at h
      simp only [List.map_cons, List.mem_cons] at h
      exact Or.inl (by simp only [List.map_cons, List.mem_cons]; exact h)
    · rw [dict_insert_cons, if_neg hk] at h
      simp only [List.map_cons, List.mem_cons] at h
      rcases h with h | h
      · exact Or.inl (by simp only [List.map_cons, List.mem_cons]; exact Or.inl h)
      · rcases ih h with h' | h'
        · exact Or.inl (by simp only [List.map_cons, List.mem_cons]; exact Or.inr h')
        · exact Or.inr h'

theorem keysNodup_insert {α : Type} {l : List (String × α)} (k : String) (v : α)
    (h : keysNodup l) : keysNodup (dict_insert l k v) := by
  induction l with
  | nil => simp [dict_insert, keysNodup]
  | cons hd tl ih =>
    obtain ⟨k', v'⟩ := hd
    simp only [keysNodup, List.map_cons, List.nodup_cons] at h
    obtain ⟨hk', htl⟩ := h
    by_cases hk : k' = k
    · subst hk
      rw [dict_insert_cons, if_pos rfl]
      simp only [keysNodup, List.map_cons, List.nodup_cons]
      exact ⟨hk', htl⟩
    · rw [dict_insert_cons, if_neg hk]
      simp only [keysNodup, List.map_cons, List.nodup_cons]
      refine ⟨fun hmem => ?_, ih htl⟩
      rcases mem_keys_dict_insert hmem with h' | h'
      · exact hk' h'
      · exact hk h'

theorem mem_keys_erase_key {α : Type} {l : List (String × α)} {k q : String}
    (h : q ∈ (erase_key l k).map Prod.fst) : q ∈ l.map Prod.fst := by
  induction l with
  | nil =>
    simp only [erase_key] at h
    exact h
  | cons hd tl ih =>
    obtain ⟨k', v'⟩ := hd
    by_cases hk : k' = k
    · subst hk
      rw [erase_key_cons, if_pos rfl] at h
      simp only [List.map_cons, List.mem_cons]
      exact Or.inr h
    · rw [erase_key_cons, if_neg hk] at h
      simp only [List.map_cons, List.mem_cons] at h
      simp only [List.map_cons, List.mem_cons]
      rcases h with h | h
      · exact Or.inl h
      · exact Or.inr (ih h)

theorem keysNodup_erase {α : Type} {l : List (String × α)} (k : String)
    (h : keysNodup l) : keysNodup (erase_key l k) := by
  induction l with
  | nil => simp [erase_key, keysNodup]
  | cons hd tl ih =>
    obtain ⟨k', v'⟩ := hd
    simp only [keysNodup, List.map_cons, List.nodup_cons] at h
    obtain ⟨hk', htl⟩ := h
    by_cases hk : k' = k
    · subst hk
      rw [erase_key_cons, if_pos rfl]
      exact htl
    · rw [erase_key_cons, if_neg hk]
      simp only [keysNodup, List.map_cons, List.nodup_cons]
      exact ⟨fun hmem => hk' (mem_keys_erase_key hmem), ih htl⟩

theorem dict_insert_fresh {α : Type} {l : List (String × α)} {k : String} (v : α)
    (h : alist_lookup l k = none) : dict_insert l k v = l ++ [(k, v)] := by
  induction l with
  | nil => simp [dict_insert]
  | cons hd tl ih =>
    obtain ⟨k', v'⟩ := hd
    by_cases hk : k' = k
    · simp [alist_lookup, hk] at h
    · simp [alist_lookup, hk] at h
      simp [dict_insert, hk, ih h]

theorem erase_key_append_fresh {α : Type} {l : List (String × α)} {k : String} (v : α)
    (h : alist_lookup l k = none) : erase_key (l ++ [(k, v)]) k = l := by
  induction l with
  | nil => simp [erase_key]
  | cons hd tl ih =>
    obtain ⟨k', v'⟩ := hd
    by_cases hk : k' = k
    · simp [alist_lookup, hk] at h
    · simp [alist_lookup, hk] at h
      simp [erase_key, hk, ih h]

/-! ## Claim C9: ampacity column selection and monotonicity -/

theorem wire_data_column_mono :
    ∀ p ∈ StandardWireData.WIRE_DATA,
      p.2.ampacity_60c ≤ p.2.ampacity_75c ∧ p.2.ampacity_75c ≤ p.2.ampacity_90c := by
  decide

/-- C9.  `get_ampacity(size, rating)` selects the 60 °C column for ratings
≤ 60, the 75 °C column for ratings in (60, 75], and the 90 °C column above
75; and for every size in the wire table the three tiers are monotone:
`ampacity(size, 60) ≤ ampacity(size, 75) ≤ ampacity(size, 90)`. -/
theorem ampacity_tier_selection_monotone :
    (∀ (s : String) (w : WireProperties), StandardWireData.get_wire_properties s = some w →
      ∀ r : ℤ,
        (r ≤ 60 → StandardWireData.get_ampacity s r = w.ampacity_60c) ∧
        (60 < r → r ≤ 75 → StandardWireData.get_ampacity s r = w.ampacity_75c) ∧
        (75 < r → StandardWireData.get_ampacity s r = w.ampacity_90c)) ∧
    (∀ (s : String) (w : WireProperties), StandardWireData.get_wire_properties s = some w →
      StandardWireData.get_ampacity s 60 ≤ StandardWireData.get_ampacity s 75 ∧
      StandardWireData.get_ampacity s 75 ≤ StandardWireData.get_ampacity s 90) := by
  have hsel : ∀ (s : String) (w : WireProperties),
      StandardWireData.get_wire_properties s = some w → ∀ r : ℤ,
        (r ≤ 60 → StandardWireData.get_ampacity s r = w.ampacity_60c) ∧
        (60 < r → r ≤ 75 → StandardWireData.get_ampacity s r = w.ampacity_75c) ∧
        (75 < r → StandardWireData.get_ampacity s r = w.ampacity_90c) := by
    intro s w h r
    refine ⟨fun h60 => ?_, fun h60 h75 => ?_, fun h75 => ?_⟩
    · simp only [StandardWireData.get_ampacity, h]
      rw [if_pos h60]
    · simp only [StandardWireData.get_ampacity, h]
      rw [if_neg (by omega : ¬r ≤ 60), if_pos h75]
    · simp only [StandardWireData.get_ampacity, h]
      rw [if_neg (by omega : ¬r ≤ 60), if_neg (by omega : ¬r ≤ 75)]
  refine ⟨hsel, fun s w h => ?_⟩
  have hmono := wire_data_column_mono (s, w) (alist_lookup_mem h)
  rw [(hsel s w h 60).1 (by omega), (hsel s w h 75).2.1 (by omega) (by omega),
    (hsel s w h 90).2.2 (by omega)]
  exact hmono

/-- Witness for C9 at the 12 AWG row of the table. -/
theorem ampacity_tier_selection_monotone_witness :
    StandardWireData.get_ampacity "12" 75 = 25 ∧
    StandardWireData.get_ampacity "12" 60 ≤ StandardWireData.get_ampacity "12" 75 ∧
    StandardWireData.get_ampacity "12" 75 ≤ StandardWireData.get_ampacity "12" 90 := by
  have h : StandardWireData.get_wire_properties "12" =
      some ⟨"12", 80.8, 6530, 1.93, 20, 25, 30⟩ := by decide
  exact ⟨(ampacity_tier_selection_monotone.1 "12" _ h 75).2.1 (by omega) (by omega),
    ampacity_tier_selection_monotone.2 "12" _ h⟩

/-! ## Load-aggregation lemmas -/

theorem sumQ_nil : sumQ [] = 0 := rfl

theorem foldl_add_shift (l : List ℚ) (a : ℚ) : l.foldl (· + ·) a = a + sumQ l := by
  induction l generalizing a with
  | nil => simp [sumQ]
  | cons x xs ih =>
    show xs.foldl (· + ·) (a + x) = a + sumQ (x :: xs)
    rw [ih (a + x), show sumQ (x :: xs) = xs.foldl (· + ·) (0 + x) from rfl, ih (0 + x)]
    ring

theorem sumQ_cons (x : ℚ) (xs : List ℚ) : sumQ (x :: xs) = x + sumQ xs := by
  show xs.foldl (· + ·) (0 + x) = x + sumQ xs
  rw [foldl_add_shift]
  ring

/-- Characterization of the single-pass aggregation loop: the continuous and
non-continuous totals are the sums over the classified loads, the motor peak
folds `max` over the motor loads, and the harmonic dict accumulates load by
load. -/
theorem calc_fold_characterization (b : Bool) (hr : Option ℕ) (loads : List LoadData) :
    ∀ (tc tnc tm : ℚ) (hc : List (Nat × ℚ)),
      loads.foldl (load_step b hr) (tc, tnc, tm, hc) =
        (tc + sumQ ((loads.filter is_continuous_load).map (base_current_of b hr)),
         tnc + sumQ ((loads.filter (fun l => !is_continuous_load l)).map (base_current_of b hr)),
         ((loads.filter (fun l => decide (l.load_type = LoadType.MOTOR))).map
            (fun l => base_current_of b hr l * l.starting_current_multiplier)).foldl max tm,
         loads.foldl (fun hc2 l => l.harmonic_content.foldl
            (fun d p => addHarm d p.1 (base_current_of b hr l * p.2)) hc2) hc) := by
  induction loads with
  | nil => intro tc tnc tm hc; simp [sumQ]
  | cons l ls ih =>
    intro tc tnc tm hc
    show ls.foldl (load_step b hr) (load_step b hr (tc, tnc, tm, hc) l) = _
    rw [show load_step b hr (tc, tnc, tm, hc) l =
      ((if is_continuous_load l then tc + base_current_of b hr l else tc),
       (if is_continuous_load l then tnc else tnc + base_current_of b hr l),
       (if l.load_type = LoadType.MOTOR then
          max tm (base_current_of b hr l * l.starting_current_multiplier) else tm),
       l.harmonic_content.foldl
         (fun d p => addHarm d p.1 (base_current_of b hr l * p.2)) hc) from rfl]
    rw [ih]
    simp only [Prod.mk.injEq]
    refine ⟨?_, ?_, ?_, rfl⟩
    · rw [List.filter_cons]
      cases hcont : is_continuous_load l <;> simp [hcont, sumQ_cons, add_assoc]
    · rw [List.filter_cons]
      cases hcont : is_continuous_load l <;> simp [hcont, sumQ_cons, add_assoc]
    · rw [List.filter_cons]
      by_cases hmot : l.load_type = LoadType.MOTOR <;> simp [hmot]

/-! ## Claim C8: load aggregation -/

/-- C8.  `calculate_load_current` classifies a load as continuous exactly
when `critical_load` is set or its type is lighting or electronic; the
continuous and non-continuous totals are the sums of the (diversity- and
time-scaled) base currents over the two classes; the design current is
`continuous_total * 1.25 + non_continuous_total`; the motor starting peak is
the maximum (not the sum) of `base_current * starting_current_multiplier`
over motor loads, 0 when there are none; on the empty load list every
aggregate is 0. -/
theorem load_current_classification_and_peaks (loads : List LoadData)
    (include_diversity : Bool) (hour : Option ℕ) :
    (calculate_load_current loads include_diversity hour).continuous_current =
      sumQ ((loads.filter is_continuous_load).map (base_current_of include_diversity hour)) ∧
    (calculate_load_current loads include_diversity hour).non_continuous_current =
      sumQ ((loads.filter (fun l => !is_continuous_load l)).map
        (base_current_of include_diversity hour)) ∧
    (calculate_load_current loads include_diversity hour).design_current =
      sumQ ((loads.filter is_continuous_load).map (base_current_of include_diversity hour)) *
        1.25 +
      sumQ ((loads.filter (fun l => !is_continuous_load l)).map
        (base_current_of include_diversity hour)) ∧
    (calculate_load_current loads include_diversity hour).motor_starting_peak =
      ((loads.filter (fun l => decide (l.load_type = LoadType.MOTOR))).map
        (fun l => base_current_of include_diversity hour l *
          l.starting_current_multiplier)).foldl max 0 ∧
    (∀ l, is_continuous_load l =
      (l.critical_load || decide (l.load_type = LoadType.LIGHTING) ||
        decide (l.load_type = LoadType.ELECTRONIC))) ∧
    calculate_load_current [] include_diversity hour =
      { continuous_current := 0, non_continuous_current := 0, design_current := 0,
        motor_starting_peak := 0, harmonic_currents := [] } := by
  have hch := calc_fold_characterization include_diversity hour loads 0 0 0 []
  refine ⟨?_, ?_, ?_, ?_, fun l => rfl, by simp [calculate_load_current]⟩
  · simp only [calculate_load_current, hch]
    ring
  · simp only [calculate_load_current, hch]
    ring
  · simp only [calculate_load_current, hch]
    ring
  · simp only [calculate_load_current, hch]

/-! ## Analyzer totality lemmas -/

theorem fdiv_some {b : ℚ} (a : ℚ) (hb : b ≠ 0) : fdiv a b = some (a / b) := by
  simp [fdiv, hb]

theorem wire_a75_pos {s : String} {w : WireProperties}
    (h : StandardWireData.get_wire_properties s = some w) : 0 < w.ampacity_75c := by
  have hall : ∀ p ∈ StandardWireData.WIRE_DATA, 0 < p.2.ampacity_75c := by decide
  exact hall (s, w) (alist_lookup_mem h)

theorem closest_temp_entry_mem (a : ℚ) : closest_temp_entry a ∈ temp_factor_table := by
  have hgen : ∀ (l : List (ℚ × ℚ)) (acc : ℚ × ℚ), acc ∈ temp_factor_table →
      (∀ x ∈ l, x ∈ temp_factor_table) →
      l.foldl (fun best cur =>
        if |cur.1 - a| < |best.1 - a| then cur else best) acc ∈ temp_factor_table := by
    intro l
    induction l with
    | nil => intro acc hacc _; exact hacc
    | cons x xs ih =>
      intro acc hacc hl
      rw [List.foldl_cons]
      refine ih _ ?_ (fun y hy => hl y (List.mem_cons_of_mem _ hy))
      by_cases hcmp : |x.1 - a| < |acc.1 - a|
      · rw [if_pos hcmp]; exact hl x (List.mem_cons_self _ _)
      · rw [if_neg hcmp]; exact hacc
  exact hgen temp_factor_table (21, 1.08) (by decide) (fun x hx => hx)

theorem temperature_correction_factor_nonneg (a : ℚ) :
    0 ≤ temperature_correction_factor a := by
  have hall : ∀ p ∈ temp_factor_table, 0 ≤ p.2 := by decide
  exact hall _ (closest_temp_entry_mem a)

theorem conduit_fill_correction_factor_pos (n : ℤ) (f : ℚ) :
    0 < conduit_fill_correction_factor n f := by
  rw [conduit_fill_correction_factor]
  split_ifs <;> norm_num

/-- Totality of `analyze_thermal_performance` whenever the derated ampacity
is nonzero (the wire resolves and the ambient-temperature factor is not the
0.00 entry of the 56 °C breakpoint). -/
theorem analyze_thermal_total (c : CircuitData) (w : WireProperties)
    (hw : StandardWireData.get_wire_properties c.wire_awg = some w)
    (ht : temperature_correction_factor c.ambient_temperature_c ≠ 0) :
    (analyze_thermal_performance c).isSome = true := by
  have hbase : StandardWireData.get_ampacity c.wire_awg 75 = w.ampacity_75c := by
    simp only [StandardWireData.get_ampacity, hw]
    rw [if_neg (by omega), if_pos (by omega)]
  have htpos : 0 < temperature_correction_factor c.ambient_temperature_c :=
    lt_of_le_of_ne (temperature_correction_factor_nonneg _) (Ne.symm ht)
  have hder : 0 < StandardWireData.get_ampacity c.wire_awg 75 *
      temperature_correction_factor c.ambient_temperature_c *
      conduit_fill_correction_factor c.number_of_conductors c.conduit_fill_percentage := by
    rw [hbase]
    exact mul_pos (mul_pos (wire_a75_pos hw) htpos) (conduit_fill_correction_factor_pos _ _)
  set D := StandardWireData.get_ampacity c.wire_awg 75 *
    temperature_correction_factor c.ambient_temperature_c *
    conduit_fill_correction_factor c.number_of_conductors c.conduit_fill_percentage with hD
  set dc := (calculate_load_current c.loads true none).design_current with hdc
  simp only [analyze_thermal_performance, hw, ← hD, ← hdc, fdiv_some dc (ne_of_gt hder),
    fdiv_some (D - dc) (ne_of_gt hder)]
  by_cases hover : D < dc
  · have hr1 : 1 < dc / D := (one_lt_div hder).mpr hover
    have hr2 : (dc / D) ^ 2 - 1.0 ≠ 0 := by
      have : (1 : ℚ) < (dc / D) ^ 2 := by nlinarith
      intro hzero
      rw [show (1.0 : ℚ) = 1 from by norm_num] at hzero
      nlinarith
    rw [if_pos hover, fdiv_some 1.0 hr2]
    rfl
  · rw [if_neg hover]
    rfl

theorem list_index_isSome_of_mem {s : String} {l : List String} (h : s ∈ l) :
    (list_index l s).isSome = true := by
  induction l with
  | nil => simp at h
  | cons a tl ih =>
    show (if a = s then some 0 else (list_index tl s).map (· + 1)).isSome = true
    by_cases ha : a = s
    · rw [if_pos ha]
      rfl
    · rw [if_neg ha]
      rcases List.mem_cons.mp h with h' | h'
      · exact absurd h'.symm ha
      · have hs := ih h'
        cases hli : list_index tl s with
        | none => rw [hli] at hs; simp at hs
        | some i => rfl

theorem upgrade_search_isSome (c : CircuitData) (d : ℚ) (hv : c.voltage_rating ≠ 0) :
    ∀ l : List String, (upgrade_search c d l).isSome = true := by
  intro l
  induction l with
  | nil => rfl
  | cons s rest ih =>
    cases hgw : StandardWireData.get_wire_properties s with
    | none => simpa only [upgrade_search, hgw] using ih
    | some tw =>
      simp only [upgrade_search, hgw, fdiv_some _ hv]
      by_cases hle : d * (tw.resistance_ohm_per_kft / 1000.0 * c.wire_length_ft * 2) /
          c.voltage_rating * 100 ≤ 3.0
      · rw [if_pos hle]
        rfl
      · rw [if_neg hle]
        exact ih

theorem recommend_wire_upgrade_isSome (c : CircuitData) (dcur pct : ℚ)
    (hlad : c.wire_awg ∈ wire_sizes) (hv : c.voltage_rating ≠ 0) :
    (recommend_wire_upgrade c dcur pct).isSome = true := by
  cases hidx : list_index wire_sizes c.wire_awg with
  | none =>
    have hmem := list_index_isSome_of_mem hlad
    rw [hidx] at hmem
    simp at hmem
  | some i =>
    simp only [recommend_wire_upgrade, hidx]
    exact upgrade_search_isSome c dcur hv _

/-- Totality of `analyze_voltage_drop` whenever the wire resolves, the
voltage rating is nonzero, and the wire size is in the upgrade ladder. -/
theorem analyze_voltage_total (c : CircuitData) (w : WireProperties)
    (hw : StandardWireData.get_wire_properties c.wire_awg = some w)
    (hlad : c.wire_awg ∈ wire_sizes) (hv : c.voltage_rating ≠ 0) :
    (analyze_voltage_drop c).isSome = true := by
  simp only [analyze_voltage_drop, hw, fdiv_some _ hv]
  by_cases hle : (calculate_load_current c.loads true none).design_current *
      (w.resistance_ohm_per_kft / 1000.0 * c.wire_length_ft * 2) / c.voltage_rating * 100 ≤ 3.0
  · rw [if_pos hle]
    rfl
  · rw [if_neg hle]
    have hrec := recommend_wire_upgrade_isSome c
      ((calculate_load_current c.loads true none).design_current)
      ((calculate_load_current c.loads true none).design_current *
        (w.resistance_ohm_per_kft / 1000.0 * c.wire_length_ft * 2) / c.voltage_rating * 100)
      hlad hv
    cases hu : recommend_wire_upgrade c
        ((calculate_load_current c.loads true none).design_current)
        ((calculate_load_current c.loads true none).design_current *
          (w.resistance_ohm_per_kft / 1000.0 * c.wire_length_ft * 2) /
          c.voltage_rating * 100) with
    | none => rw [hu] at hrec; simp at hrec
    | some u => rfl

theorem k_factor_sum_isSome {f : ℚ} (hf : f ≠ 0) :
    ∀ l : List (Nat × ℚ), (k_factor_sum f l).isSome = true := by
  intro l
  induction l with
  | nil => rfl
  | cons p rest ih =>
    obtain ⟨ho, cur⟩ := p
    simp only [k_factor_sum, fdiv_some _ hf]
    cases hk : k_factor_sum f rest with
    | none => rw [hk] at ih; simp at ih
    | some s => rfl

/-- Totality of `analyze_harmonic_distortion` whenever the fundamental is
nonzero or no harmonic order is present. -/
theorem analyze_harmonic_total (circuit_loads : List LoadData)
    (h : (harmonic_loop circuit_loads).1 ≠ 0 ∨ (harmonic_loop circuit_loads).2 = []) :
    (analyze_harmonic_distortion circuit_loads).isSome = true := by
  rcases h with hf | hd
  · simp only [analyze_harmonic_distortion]
    have hks := k_factor_sum_isSome hf (harmonic_loop circuit_loads).2
    cases hk : k_factor_sum (harmonic_loop circuit_loads).1 (harmonic_loop circuit_loads).2 with
    | none => rw [hk] at hks; simp at hks
    | some s => rfl
  · simp only [analyze_harmonic_distortion, hd]
    rfl

/-! ## Claim C3: analyzers and in-range inputs -/

/-- C3, counterexample.  The in-range circuit `cT56` (wire size in the table,
non-negative currents, diversity 1, ambient 56 °C) raises
`ZeroDivisionError` in `analyze_thermal_performance`: the nearest-breakpoint
temperature factor is 0.00, the derated ampacity is 0, and
`design_current / derated_ampacity` divides by zero. -/
theorem thermal_raises_at_56C_ambient :
    (StandardWireData.get_wire_properties cT56.wire_awg).isSome = true ∧
    cT56.ambient_temperature_c = 56 ∧
    (0 : ℚ) ≤ loadA.nominal_current ∧
    (0 : ℚ) ≤ loadA.diversity_factor ∧ loadA.diversity_factor ≤ 1 ∧
    analyze_thermal_performance cT56 = none := by
  decide

/-- C3, amended.  The three analyzers complete without error on in-range
circuits provided additionally: the ambient-temperature derating factor is
nonzero (thermal); the voltage rating is nonzero and the wire size lies in
the upgrade ladder (voltage drop); the fundamental current is nonzero or no
harmonic order is present (harmonic distortion).  Without these guards the
source divides by zero, as the counterexample shows. -/
theorem analyzers_total_on_guarded_inputs :
    (∀ (c : CircuitData) (w : WireProperties),
      StandardWireData.get_wire_properties c.wire_awg = some w →
      temperature_correction_factor c.ambient_temperature_c ≠ 0 →
      (analyze_thermal_performance c).isSome = true) ∧
    (∀ (c : CircuitData) (w : WireProperties),
      StandardWireData.get_wire_properties c.wire_awg = some w →
      c.wire_awg ∈ wire_sizes → c.voltage_rating ≠ 0 →
      (analyze_voltage_drop c).isSome = true) ∧
    (∀ circuit_loads : List LoadData,
      (harmonic_loop circuit_loads).1 ≠ 0 ∨ (harmonic_loop circuit_loads).2 = [] →
      (analyze_harmonic_distortion circuit_loads).isSome = true) :=
  ⟨analyze_thermal_total, analyze_voltage_total, analyze_harmonic_total⟩

/-- Witness for C3 on the healthy circuit `cW3`. -/
theorem analyzers_total_on_guarded_inputs_witness :
    (analyze_thermal_performance cW3).isSome = true ∧
    (analyze_voltage_drop cW3).isSome = true ∧
    (analyze_harmonic_distortion cW3.loads).isSome = true :=
  ⟨analyzers_total_on_guarded_inputs.1 cW3 ⟨"12", 80.8, 6530, 1.93, 20, 25, 30⟩
      (by decide) (by decide),
    analyzers_total_on_guarded_inputs.2.1 cW3 ⟨"12", 80.8, 6530, 1.93, 20, 25, 30⟩
      (by decide) (by decide) (by decide),
    analyzers_total_on_guarded_inputs.2.2 cW3.loads (Or.inl (by decide))⟩

/-! ## Claim C4: voltage-drop upgrade recommendation -/

/-- The search loop returns the first ladder entry whose recomputed drop
meets the limit, and the engineer-review sentinel when none does. -/
theorem upgrade_search_find (c : CircuitData) (d : ℚ) (hv : c.voltage_rating ≠ 0) :
    ∀ l : List String, upgrade_search c d l =
      some ((l.find? (ladder_meets c d)).getD "Consult engineer - may need voltage upgrade") := by
  intro l
  induction l with
  | nil => rfl
  | cons s rest ih =>
    cases hgw : StandardWireData.get_wire_properties s with
    | none =>
      have hlm : ladder_meets c d s = false := by
        simp only [ladder_meets, hgw]
      rw [List.find?_cons_of_neg _ (by rw [hlm]; exact Bool.false_ne_true)]
      simpa only [upgrade_search, hgw] using ih
    | some tw =>
      simp only [upgrade_search, hgw, fdiv_some _ hv]
      have hlm : ladder_meets c d s =
          decide (d * (tw.resistance_ohm_per_kft / 1000.0 * c.wire_length_ft * 2) /
            c.voltage_rating * 100 ≤ 3.0) := by
        simp only [ladder_meets, hgw]
      by_cases hle : d * (tw.resistance_ohm_per_kft / 1000.0 * c.wire_length_ft * 2) /
          c.voltage_rating * 100 ≤ 3.0
      · rw [if_pos hle, List.find?_cons_of_pos _ (by rw [hlm]; exact decide_eq_true hle)]
        rfl
      · rw [if_neg hle, List.find?_cons_of_neg _ (by rw [hlm]; simpa using hle)]
        exact ih

/-- C4, counterexample.  The circuit `c250` has a wire size present in the
wire table whose computed drop percent (6.87%) exceeds the limit, yet
`analyze_voltage_drop` raises (`"250"` is absent from the 12-entry ladder and
`list.index` raises `ValueError`) instead of returning any recommendation;
the ladder is not the wire table's key set. -/
theorem voltage_drop_upgrade_raises_beyond_ladder :
    (StandardWireData.get_wire_properties c250.wire_awg).isSome = true ∧
    analyze_voltage_drop c250 = none := by
  decide

/-- C4, amended.  For circuits whose wire size lies in the fixed 12-entry
ladder `wire_sizes` (a strict prefix of the wire table's key order ending at
"4/0", not the full key set) and whose drop percent exceeds the limit, the
recommended upgrade is the first — that is, smallest in ladder order —
ladder size strictly after the current one whose recomputed drop percent
meets the limit, and the "needs engineer review" sentinel exactly when no
such ladder size exists; for table sizes beyond the ladder the routine
raises instead. -/
theorem recommended_upgrade_first_compliant_in_ladder (c : CircuitData) (i : ℕ)
    (hv : c.voltage_rating ≠ 0) (hidx : list_index wire_sizes c.wire_awg = some i)
    (v : VoltageDropAnalysis) (hav : analyze_voltage_drop c = some v)
    (hfail : v.meets_code_requirements = false) :
    v.recommended_wire_upgrade =
      some (((wire_sizes.drop (i + 1)).find?
          (ladder_meets c (calculate_load_current c.loads true none).design_current)).getD
        "Consult engineer - may need voltage upgrade") := by
  cases hgw : StandardWireData.get_wire_properties c.wire_awg with
  | none => rw [analyze_voltage_drop, hgw] at hav; exact absurd hav (by simp)
  | some w =>
    rw [analyze_voltage_drop, hgw] at hav
    simp only [fdiv_some _ hv] at hav
    by_cases hle : (calculate_load_current c.loads true none).design_current *
        (w.resistance_ohm_per_kft / 1000.0 * c.wire_length_ft * 2) /
        c.voltage_rating * 100 ≤ 3.0
    · rw [if_pos hle] at hav
      cases hav
      simp at hfail
    · rw [if_neg hle] at hav
      simp only [recommend_wire_upgrade, hidx,
        upgrade_search_find c _ hv (wire_sizes.drop (i + 1))] at hav
      cases hav
      rfl

/-- Witness for C4 on the 200 ft 14 AWG run `cU`: the first compliant ladder
size is "6". -/
theorem recommended_upgrade_first_compliant_in_ladder_witness :
    analyze_voltage_drop cU = some vU ∧ vU.meets_code_requirements = false ∧
    vU.recommended_wire_upgrade =
      some (((wire_sizes.drop (0 + 1)).find?
          (ladder_meets cU (calculate_load_current cU.loads true none).design_current)).getD
        "Consult engineer - may need voltage upgrade") := by
  have hav : analyze_voltage_drop cU = some vU := by decide
  exact ⟨hav, by decide,
    recommended_upgrade_first_compliant_in_ladder cU 0 (by decide) (by decide) vU hav
      (by decide)⟩

/-! ## Claim C2: severity policy -/

/-- Invariant of `analyze_voltage_drop`: the stored compliance flag is the
comparison of the stored drop percent against the 3.0 limit. -/
theorem analyze_voltage_drop_meets (c : CircuitData) (v : VoltageDropAnalysis)
    (hav : analyze_voltage_drop c = some v) :
    v.meets_code_requirements = decide (v.voltage_drop_percent ≤ 3.0) := by
  cases hgw : StandardWireData.get_wire_properties c.wire_awg with
  | none =>
    rw [analyze_voltage_drop, hgw] at hav
    exact Option.noConfusion hav
  | some w =>
    cases hd : fdiv ((calculate_load_current c.loads true none).design_current *
        (w.resistance_ohm_per_kft / 1000.0 * c.wire_length_ft * 2)) c.voltage_rating with
    | none =>
      simp only [analyze_voltage_drop, hgw, hd] at hav
      exact Option.noConfusion hav
    | some frac =>
      simp only [analyze_voltage_drop, hgw, hd] at hav
      by_cases hle : frac * 100 ≤ 3.0
      · rw [if_pos hle] at hav
        cases hav
        exact (decide_eq_true hle).symm
      · rw [if_neg hle] at hav
        cases hr : recommend_wire_upgrade c
            ((calculate_load_current c.loads true none).design_current) (frac * 100) with
        | none => rw [hr] at hav; exact Option.noConfusion hav
        | some u =>
          rw [hr] at hav
          cases hav
          exact (decide_eq_false hle).symm

/-- The severity of any emitted Parent Circuit Loading check as a function of
its own margin (critical strictly below −20 points, warning below 0). -/
theorem parent_loading_check_severity (g : AnalyzerState) (p : String) (pc : CircuitData)
    (ck : SystemConstraintCheck) (h : parent_loading_check g p pc = some ck) :
    ck.constraint_name = "Parent Circuit Loading" ∧
    ck.severity_level = (if ck.margin_percent < -20.0 then "critical"
      else if ck.margin_percent < 0 then "warning" else "info") := by
  cases hpt : analyze_thermal_performance pc with
  | none =>
    simp only [parent_loading_check, hpt] at h
    exact Option.noConfusion h
  | some pt =>
    cases hlf : fdiv (calculate_load_current (gather_child_loads g.circuits
        ((alist_lookup g.system_hierarchy p).getD [])) true none).design_current
        pt.ampacity_derated with
    | none =>
      simp only [parent_loading_check, hpt, hlf] at h
      exact Option.noConfusion h
    | some lf =>
      simp only [parent_loading_check, hpt, hlf, Option.some.injEq] at h
      subst h
      refine ⟨rfl, ?_⟩
      show (if 100 < lf * 100 then "critical"
          else if 80.0 < lf * 100 then "warning" else "info") =
        if 80.0 - lf * 100 < -20.0 then "critical"
          else if 80.0 - lf * 100 < 0 then "warning" else "info"
      by_cases h1 : 100 < lf * 100
      · rw [if_pos h1, if_pos (by linarith)]
      · rw [if_neg h1]
        push_neg at h1
        by_cases h2 : 80.0 < lf * 100
        · rw [if_pos h2, if_neg (by intro hc; linarith), if_pos (by linarith)]
        · rw [if_neg h2, if_neg (by intro hc; linarith),
            if_neg (by intro hc; push_neg at h2; linarith)]

/-- Every member of a successful `parent_constraints` result comes from
`parent_loading_check` on the registered parent. -/
theorem parent_constraints_mem (g : AnalyzerState) (c : CircuitData)
    (pcs : List SystemConstraintCheck) (h : parent_constraints g c = some pcs)
    (ck : SystemConstraintCheck) (hm : ck ∈ pcs) :
    ∃ (p : String) (pc : CircuitData), parent_loading_check g p pc = some ck := by
  cases hp : c.parent_circuit_id with
  | none =>
    simp only [parent_constraints, hp, Option.some.injEq] at h
    subst h
    simp at hm
  | some p =>
    by_cases hpe : p = ""
    · simp only [parent_constraints, hp, if_pos hpe, Option.some.injEq] at h
      subst h
      simp at hm
    · cases hl : alist_lookup g.circuits p with
      | none =>
        simp only [parent_constraints, hp, if_neg hpe, hl, Option.some.injEq] at h
        subst h
        simp at hm
      | some pc =>
        cases hck : parent_loading_check g p pc with
        | none =>
          simp only [parent_constraints, hp, if_neg hpe, hl, hck] at h
          exact Option.noConfusion h
        | some ck0 =>
          simp only [parent_constraints, hp, if_neg hpe, hl, hck, Option.some.injEq] at h
          subst h
          rcases List.mem_singleton.mp hm with rfl
          exact ⟨p, pc, hck⟩

/-- C2, counterexample.  On `cTHD` the Current THD check has a negative
margin (−150) but severity "warning", not "critical": the uniform
margin-driven severity policy does not hold for all four checks. -/
theorem thd_severity_not_critical_on_negative_margin :
    ((validate_system_constraints emptyAnalyzer cTHD).1.map
      (fun l => l.any (fun ck => decide (ck.margin_percent < 0) &&
        decide (ck.severity_level = "warning")))) = some true := by
  decide

/-- C2, amended.  Each check follows its own severity rule as a function of
its margin: Conductor Ampacity follows the claimed policy (critical below 0,
warning below the 20-point minimum, info otherwise); Voltage Drop is
critical below 0 and info otherwise (never warning); Parent Circuit Loading
is critical only below −20 points (loading above 100%), warning below 0;
Current THD is warning below 0 and info otherwise (never critical). -/
theorem severity_policy_per_check (st : AnalyzerState) (c : CircuitData)
    (l : List SystemConstraintCheck) (hv : (validate_system_constraints st c).1 = some l) :
    ∀ ck ∈ l, severity_policy_holds ck := by
  intro ck hck
  have hcore : validate_core (add_circuit st c) c = some l := hv
  cases hth : analyze_thermal_performance c with
  | none =>
    simp only [validate_core, hth] at hcore
    exact Option.noConfusion hcore
  | some thermal =>
  cases hvd : analyze_voltage_drop c with
  | none =>
    simp only [validate_core, hth, hvd] at hcore
    exact Option.noConfusion hcore
  | some voltage =>
  cases hpc : parent_constraints (add_circuit st c) c with
  | none =>
    simp only [validate_core, hth, hvd, hpc] at hcore
    exact Option.noConfusion hcore
  | some pcs =>
  cases hhm : analyze_harmonic_distortion c.loads with
  | none =>
    simp only [validate_core, hth, hvd, hpc, hhm] at hcore
    exact Option.noConfusion hcore
  | some harmonic =>
  simp only [validate_core, hth, hvd, hpc, hhm, Option.some.injEq] at hcore
  subst hcore
  rcases List.mem_append.mp hck with hck | hck
  · rcases List.mem_append.mp hck with hck | hck
    · rcases List.mem_cons.mp hck with rfl | hck
      · -- the Conductor Ampacity check follows the claimed policy literally
        exact ⟨fun _ => rfl,
          fun h => absurd (show ("Conductor Ampacity" : String) = "Voltage Drop" from h)
            (by decide),
          fun h => absurd (show ("Conductor Ampacity" : String) = "Parent Circuit Loading"
            from h) (by decide),
          fun h => absurd (show ("Conductor Ampacity" : String) = "Current THD" from h)
            (by decide)⟩
      · rcases List.mem_singleton.mp hck with rfl
        -- the Voltage Drop check: critical exactly on negative margin
        refine ⟨fun h => absurd (show ("Voltage Drop" : String) = "Conductor Ampacity" from h)
            (by decide),
          fun _ => ?_,
          fun h => absurd (show ("Voltage Drop" : String) = "Parent Circuit Loading" from h)
            (by decide),
          fun h => absurd (show ("Voltage Drop" : String) = "Current THD" from h)
            (by decide)⟩
        have hmeets := analyze_voltage_drop_meets c voltage hvd
        show (if voltage.meets_code_requirements then "info" else "critical") =
          if (3.0 - voltage.voltage_drop_percent) / 3.0 * 100 < 0 then "critical" else "info"
        by_cases hple : voltage.voltage_drop_percent ≤ 3.0
        · have hnn : ¬((3.0 - voltage.voltage_drop_percent) / 3.0 * 100 < 0) := by
            push_neg
            exact mul_nonneg (div_nonneg (by linarith) (by norm_num)) (by norm_num)
          rw [hmeets, decide_eq_true hple, if_pos rfl, if_neg hnn]
        · have hneg : (3.0 - voltage.voltage_drop_percent) / 3.0 * 100 < 0 := by
            have h3 : 3.0 - voltage.voltage_drop_percent < 0 := by
              push_neg at hple
              linarith
            exact mul_neg_of_neg_of_pos
              (div_neg_of_neg_of_pos h3 (by norm_num)) (by norm_num)
          rw [hmeets, decide_eq_false hple, if_pos hneg]
          rfl
    · -- a Parent Circuit Loading check
      obtain ⟨p, pc, hplc⟩ := parent_constraints_mem _ _ _ hpc ck hck
      obtain ⟨hname, hsev⟩ := parent_loading_check_severity _ _ _ _ hplc
      refine ⟨fun h => ?_, fun h => ?_, fun _ => hsev, fun h => ?_⟩
      · rw [hname] at h
        exact absurd h (by decide)
      · rw [hname] at h
        exact absurd h (by decide)
      · rw [hname] at h
        exact absurd h (by decide)
  · rcases List.mem_singleton.mp hck with rfl
    -- the Current THD check: warning exactly on negative margin
    refine ⟨fun h => absurd (show ("Current THD" : String) = "Conductor Ampacity" from h)
        (by decide),
      fun h => absurd (show ("Current THD" : String) = "Voltage Drop" from h) (by decide),
      fun h => absurd (show ("Current THD" : String) = "Parent Circuit Loading" from h)
        (by decide),
      fun _ => ?_⟩
    show (if 20.0 < harmonic.thd_current_percent then "warning" else "info") =
      if (20.0 - harmonic.thd_current_percent) / 20.0 * 100 < 0 then "warning" else "info"
    by_cases hgt : 20.0 < harmonic.thd_current_percent
    · have hneg : (20.0 - harmonic.thd_current_percent) / 20.0 * 100 < 0 :=
        mul_neg_of_neg_of_pos
          (div_neg_of_neg_of_pos (by linarith) (by norm_num)) (by norm_num)
      rw [if_pos hgt, if_pos hneg]
    · have hnn : ¬((20.0 - harmonic.thd_current_percent) / 20.0 * 100 < 0) := by
        push_neg
        push_neg at hgt
        exact mul_nonneg (div_nonneg (by linarith) (by norm_num)) (by norm_num)
      rw [if_neg hgt, if_neg hnn]

/-- Witness for C2 on the healthy circuit `cW2`. -/
theorem severity_policy_per_check_witness :
    ∃ l, (validate_system_constraints emptyAnalyzer cW2).1 = some l ∧
      ∀ ck ∈ l, severity_policy_holds ck := by
  refine ⟨_, rfl, fun ck hck => severity_policy_per_check emptyAnalyzer cW2 _ rfl ck hck⟩

/-! ## Claim C5: parent-loading overload flags -/

/-- Field-level behaviour of any emitted Parent Circuit Loading check:
loading above 100% fails with severity critical, loading in (80%, 100%]
fails with severity warning. -/
theorem parent_loading_check_fields (g : AnalyzerState) (p : String) (pc : CircuitData)
    (ck : SystemConstraintCheck) (h : parent_loading_check g p pc = some ck) :
    ck.constraint_name = "Parent Circuit Loading" ∧
    (100 < ck.current_value → ck.passes_check = false ∧ ck.severity_level = "critical") ∧
    (80.0 < ck.current_value → ck.current_value ≤ 100 →
      ck.passes_check = false ∧ ck.severity_level = "warning") := by
  cases hpt : analyze_thermal_performance pc with
  | none =>
    simp only [parent_loading_check, hpt] at h
    exact Option.noConfusion h
  | some pt =>
    cases hlf : fdiv (calculate_load_current (gather_child_loads g.circuits
        ((alist_lookup g.system_hierarchy p).getD [])) true none).design_current
        pt.ampacity_derated with
    | none =>
      simp only [parent_loading_check, hpt, hlf] at h
      exact Option.noConfusion h
    | some lf =>
      simp only [parent_loading_check, hpt, hlf, Option.some.injEq] at h
      subst h
      refine ⟨rfl, fun hover => ?_, fun hlo hhi => ?_⟩
      · constructor
        · show decide (lf * 100 ≤ 80.0) = false
          exact decide_eq_false (by intro hle; linarith)
        · show (if 100 < lf * 100 then "critical"
            else if 80.0 < lf * 100 then "warning" else "info") = "critical"
          rw [if_pos hover]
      · constructor
        · show decide (lf * 100 ≤ 80.0) = false
          exact decide_eq_false (by intro hle; linarith)
        · show (if 100 < lf * 100 then "critical"
            else if 80.0 < lf * 100 then "warning" else "info") = "warning"
          rw [if_neg (by intro hc; linarith), if_pos hlo]

/-- C5.  When the candidate names a truthy parent that is registered at
evaluation time, a "Parent Circuit Loading" check built from the aggregate of
all the parent's children's loads (the grafted candidate included) appears in
the returned list; it fails with severity "critical" when the loading exceeds
100%, and fails with severity "warning" when the loading is above the
configured 80% limit but at most 100%. -/
theorem parent_loading_check_flags_overload (st : AnalyzerState) (c : CircuitData)
    (p : String) (hp : c.parent_circuit_id = some p) (hpe : p ≠ "")
    (pc : CircuitData) (hpcirc : alist_lookup (add_circuit st c).circuits p = some pc)
    (l : List SystemConstraintCheck)
    (hv : (validate_system_constraints st c).1 = some l) :
    ∃ ck ∈ l, parent_loading_check (add_circuit st c) p pc = some ck ∧
      ck.constraint_name = "Parent Circuit Loading" ∧
      (100 < ck.current_value → ck.passes_check = false ∧ ck.severity_level = "critical") ∧
      (80.0 < ck.current_value → ck.current_value ≤ 100 →
        ck.passes_check = false ∧ ck.severity_level = "warning") := by
  have hcore : validate_core (add_circuit st c) c = some l := hv
  cases hth : analyze_thermal_performance c with
  | none =>
    simp only [validate_core, hth] at hcore
    exact Option.noConfusion hcore
  | some thermal =>
  cases hvd : analyze_voltage_drop c with
  | none =>
    simp only [validate_core, hth, hvd] at hcore
    exact Option.noConfusion hcore
  | some voltage =>
  cases hpc : parent_constraints (add_circuit st c) c with
  | none =>
    simp only [validate_core, hth, hvd, hpc] at hcore
    exact Option.noConfusion hcore
  | some pcs =>
  cases hhm : analyze_harmonic_distortion c.loads with
  | none =>
    simp only [validate_core, hth, hvd, hpc, hhm] at hcore
    exact Option.noConfusion hcore
  | some harmonic =>
  simp only [validate_core, hth, hvd, hpc, hhm, Option.some.injEq] at hcore
  subst hcore
  cases hplc : parent_loading_check (add_circuit st c) p pc with
  | none =>
    simp only [parent_constraints, hp, if_neg hpe, hpcirc, hplc] at hpc
    exact Option.noConfusion hpc
  | some ck3 =>
    simp only [parent_constraints, hp, if_neg hpe, hpcirc, hplc, Option.some.injEq] at hpc
    subst hpc
    refine ⟨ck3, ?_, rfl, parent_loading_check_fields _ _ _ _ hplc⟩
    exact List.mem_append.mpr (Or.inl (List.mem_append.mpr (Or.inr
      (List.mem_singleton.mpr rfl))))

/-- Witness for C5: the candidate child "C" drives the 14 AWG parent "P" to
164.8% loading, and the emitted check is critical and failing. -/
theorem parent_loading_check_flags_overload_witness :
    ∃ l, (validate_system_constraints stP cChild).1 = some l ∧
      ∃ ck ∈ l, parent_loading_check (add_circuit stP cChild) "P" cParent = some ck ∧
        ck.constraint_name = "Parent Circuit Loading" ∧
        (100 < ck.current_value → ck.passes_check = false ∧
          ck.severity_level = "critical") ∧
        (80.0 < ck.current_value → ck.current_value ≤ 100 →
          ck.passes_check = false ∧ ck.severity_level = "warning") := by
  refine ⟨_, rfl, parent_loading_check_flags_overload stP cChild "P" rfl (by decide)
    cParent (by decide) _ rfl⟩

/-! ## Claim C7: overall report status -/

/-- C7.  `overall_status` of every produced integration report is "FAIL"
exactly when some constraint check is critical; "PASS" exactly when no check
is critical or warning; "PASS_WITH_WARNINGS" exactly when there is no
critical check but at least one warning. -/
theorem overall_status_matches_severities (st : AnalyzerState) (c : CircuitData)
    (rep : IntegrationReport) (h : (generate_integration_report st c).1 = some rep) :
    (rep.overall_status = "FAIL" ↔
      ∃ ck ∈ rep.constraint_checks, ck.severity_level = "critical") ∧
    (rep.overall_status = "PASS" ↔
      ∀ ck ∈ rep.constraint_checks,
        ck.severity_level ≠ "critical" ∧ ck.severity_level ≠ "warning") ∧
    (rep.overall_status = "PASS_WITH_WARNINGS" ↔
      ((∀ ck ∈ rep.constraint_checks, ck.severity_level ≠ "critical") ∧
        ∃ ck ∈ rep.constraint_checks, ck.severity_level = "warning")) := by
  cases hv1 : (validate_system_constraints st c).1 with
  | none =>
    simp only [generate_integration_report, hv1] at h
    exact Option.noConfusion h
  | some constraints =>
  cases hth : analyze_thermal_performance c with
  | none =>
    simp only [generate_integration_report, hv1, hth] at h
    exact Option.noConfusion h
  | some thermal =>
  cases hvd : analyze_voltage_drop c with
  | none =>
    simp only [generate_integration_report, hv1, hth, hvd] at h
    exact Option.noConfusion h
  | some voltage =>
  cases hhm : analyze_harmonic_distortion c.loads with
  | none =>
    simp only [generate_integration_report, hv1, hth, hvd, hhm] at h
    exact Option.noConfusion h
  | some harmonic =>
  simp only [generate_integration_report, hv1, hth, hvd, hhm, Option.some.injEq] at h
  subst h
  have hcrit_iff : (constraints.filter
        (fun ck => decide (ck.severity_level = "critical")) = []) ↔
      ∀ ck ∈ constraints, ck.severity_level ≠ "critical" := by
    simp [List.filter_eq_nil_iff]
  have hwarn_iff : (constraints.filter
        (fun ck => decide (ck.severity_level = "warning")) = []) ↔
      ∀ ck ∈ constraints, ck.severity_level ≠ "warning" := by
    simp [List.filter_eq_nil_iff]
  by_cases hc : constraints.filter (fun ck => decide (ck.severity_level = "critical")) = []
  · by_cases hw : constraints.filter (fun ck => decide (ck.severity_level = "warning")) = []
    · -- no criticals, no warnings: PASS
      refine ⟨?_, ?_, ?_⟩ <;>
        simp only [if_neg (not_not_intro hc), if_neg (not_not_intro hw)]
      · exact iff_of_false (by decide)
          (fun ⟨ck, hm, hs⟩ => (hcrit_iff.mp hc ck hm) hs)
      · exact iff_of_true (by decide)
          (fun ck hm => ⟨hcrit_iff.mp hc ck hm, hwarn_iff.mp hw ck hm⟩)
      · exact iff_of_false (by decide)
          (fun ⟨_, ⟨ck, hm, hs⟩⟩ => (hwarn_iff.mp hw ck hm) hs)
    · -- no criticals, some warning: PASS_WITH_WARNINGS
      obtain ⟨ckw, hmw, hsw⟩ : ∃ ck ∈ constraints, ck.severity_level = "warning" := by
        rcases List.exists_mem_of_ne_nil _ hw with ⟨ck, hmem⟩
        obtain ⟨hmem', hdec⟩ := List.mem_filter.mp hmem
        exact ⟨ck, hmem', of_decide_eq_true hdec⟩
      refine ⟨?_, ?_, ?_⟩ <;>
        simp only [if_neg (not_not_intro hc), if_pos hw]
      · exact iff_of_false (by decide)
          (fun ⟨ck, hm, hs⟩ => (hcrit_iff.mp hc ck hm) hs)
      · exact iff_of_false (by decide)
          (fun hall => ((hall ckw hmw).2 hsw))
      · exact iff_of_true (by decide) ⟨hcrit_iff.mp hc, ckw, hmw, hsw⟩
  · -- some critical: FAIL
    obtain ⟨ckc, hmc, hsc⟩ : ∃ ck ∈ constraints, ck.severity_level = "critical" := by
      rcases List.exists_mem_of_ne_nil _ hc with ⟨ck, hmem⟩
      obtain ⟨hmem', hdec⟩ := List.mem_filter.mp hmem
      exact ⟨ck, hmem', of_decide_eq_true hdec⟩
    refine ⟨?_, ?_, ?_⟩ <;> simp only [if_pos hc]
    · exact iff_of_true (by decide) ⟨ckc, hmc, hsc⟩
    · exact iff_of_false (by decide) (fun hall => ((hall ckc hmc).1 hsc))
    · exact iff_of_false (by decide) (fun ⟨hall, _⟩ => (hall ckc hmc) hsc)

/-- Witness for C7 on the healthy circuit `cW7`, whose report status is
"PASS". -/
theorem overall_status_matches_severities_witness :
    ∃ rep, (generate_integration_report emptyAnalyzer cW7).1 = some rep ∧
      ((rep.overall_status = "FAIL" ↔
        ∃ ck ∈ rep.constraint_checks, ck.severity_level = "critical") ∧
      (rep.overall_status = "PASS" ↔
        ∀ ck ∈ rep.constraint_checks,
          ck.severity_level ≠ "critical" ∧ ck.severity_level ≠ "warning") ∧
      (rep.overall_status = "PASS_WITH_WARNINGS" ↔
        ((∀ ck ∈ rep.constraint_checks, ck.severity_level ≠ "critical") ∧
          ∃ ck ∈ rep.constraint_checks, ck.severity_level = "warning"))) := by
  refine ⟨_, rfl, overall_status_matches_severities emptyAnalyzer cW7 _ rfl⟩

/-! ## Hierarchy-index lemmas -/

theorem lookup_hier_add_self (L : List (String × List String)) (p cid : String) :
    alist_lookup (hier_add L p cid) p = some ((alist_lookup L p).getD [] ++ [cid]) := by
  induction L with
  | nil => simp [hier_add, alist_lookup]
  | cons hd tl ih =>
    obtain ⟨k, v⟩ := hd
    by_cases hk : k = p
    · subst hk
      simp [hier_add, alist_lookup]
    · simp [hier_add, hk, alist_lookup, ih]

theorem lookup_hier_add_ne (L : List (String × List String)) (p cid q : String)
    (hq : q ≠ p) : alist_lookup (hier_add L p cid) q = alist_lookup L q := by
  induction L with
  | nil => simp [hier_add, alist_lookup, Ne.symm hq]
  | cons hd tl ih =>
    obtain ⟨k, v⟩ := hd
    by_cases hk : k = p
    · subst hk
      simp [hier_add, alist_lookup, Ne.symm hq]
    · simp [hier_add, hk, alist_lookup, ih]

theorem lookup_hier_remove_self (L : List (String × List String)) (p cid : String) :
    alist_lookup (hier_remove L p cid) p =
      (alist_lookup L p).map (fun v => eraseStr v cid) := by
  induction L with
  | nil => simp [hier_remove, alist_lookup]
  | cons hd tl ih =>
    obtain ⟨k, v⟩ := hd
    by_cases hk : k = p
    · subst hk
      simp [hier_remove, alist_lookup]
    · simp [hier_remove, hk, alist_lookup, ih]

theorem lookup_hier_remove_ne (L : List (String × List String)) (p cid q : String)
    (hq : q ≠ p) : alist_lookup (hier_remove L p cid) q = alist_lookup L q := by
  induction L with
  | nil => simp [hier_remove]
  | cons hd tl ih =>
    obtain ⟨k, v⟩ := hd
    by_cases hk : k = p
    · subst hk
      simp [hier_remove, alist_lookup, Ne.symm hq]
    · simp [hier_remove, hk, alist_lookup, ih]

theorem mem_eraseStr {q : String} {l : List String} {x : String}
    (h : q ∈ eraseStr l x) : q ∈ l := by
  induction l with
  | nil => simp [eraseStr] at h
  | cons a tl ih =>
    by_cases ha : a = x
    · subst ha
      rw [eraseStr, if_pos rfl] at h
      exact List.mem_cons_of_mem _ h
    · rw [eraseStr, if_neg ha] at h
      rcases List.mem_cons.mp h with h | h
      · exact h ▸ List.mem_cons_self _ _
      · exact List.mem_cons_of_mem _ (ih h)

theorem eraseStr_append_self {x : String} {l : List String} (hx : x ∉ l) :
    eraseStr (l ++ [x]) x = l := by
  induction l with
  | nil => simp [eraseStr]
  | cons a tl ih =>
    rw [List.mem_cons, not_or] at hx
    rw [List.cons_append, eraseStr, if_neg (fun h => hx.1 h.symm), ih hx.2]

theorem perm_eraseStr_cons {x : String} {l : List String} (hx : x ∈ l) :
    List.Perm l (x :: eraseStr l x) := by
  induction l with
  | nil => simp at hx
  | cons a tl ih =>
    by_cases ha : a = x
    · subst ha
      rw [eraseStr, if_pos rfl]
    · rw [eraseStr, if_neg ha]
      rcases List.mem_cons.mp hx with h | h
      · exact absurd h.symm ha
      · exact ((ih h).cons a).trans (List.Perm.swap x a _)

theorem perm_eraseStr_append {x : String} {l : List String} (hx : x ∈ l) :
    List.Perm (eraseStr l x ++ [x]) l :=
  (List.perm_append_singleton x _).trans (perm_eraseStr_cons hx).symm

/-! ## Graft/release lemmas -/

/-- After grafting, the candidate id is always a registry key, so the
`finally` guard of the source is taken. -/
theorem release_candidate_of_grafted (st : AnalyzerState) (c : CircuitData) :
    release_candidate (add_circuit st c) c =
      { circuits := erase_key (add_circuit st c).circuits c.circuit_id
        system_hierarchy :=
          match c.parent_circuit_id with
          | none => (add_circuit st c).system_hierarchy
          | some p =>
            if (alist_lookup (add_circuit st c).system_hierarchy p).isSome then
              hier_remove (add_circuit st c).system_hierarchy p c.circuit_id
            else (add_circuit st c).system_hierarchy } := by
  rw [release_candidate, if_pos]
  rw [show (add_circuit st c).circuits = dict_insert st.circuits c.circuit_id c from rfl,
    lookup_dict_insert_self]
  rfl

/-- The graft-then-release round trip always removes the candidate id from
the registry (keys are unique, as in every Python dict). -/
theorem release_graft_circuits (st : AnalyzerState) (c : CircuitData)
    (hnd : keysNodup st.circuits) :
    alist_lookup (release_candidate (add_circuit st c) c).circuits c.circuit_id = none := by
  rw [release_candidate_of_grafted]
  exact lookup_erase_key_self (keysNodup_insert _ _ hnd)

/-- Hierarchy component of the graft-then-release round trip. -/
theorem release_grafted_hier_none (st : AnalyzerState) (c : CircuitData)
    (hp : c.parent_circuit_id = none) :
    (release_candidate (add_circuit st c) c).system_hierarchy = st.system_hierarchy := by
  rw [release_candidate_of_grafted]
  simp only [add_circuit, hp]

theorem release_grafted_hier_empty (st : AnalyzerState) (c : CircuitData)
    (hp : c.parent_circuit_id = some "") :
    (release_candidate (add_circuit st c) c).system_hierarchy =
      if (alist_lookup st.system_hierarchy "").isSome then
        hier_remove st.system_hierarchy "" c.circuit_id
      else st.system_hierarchy := by
  rw [release_candidate_of_grafted]
  simp [add_circuit, hp]

theorem release_grafted_hier_truthy (st : AnalyzerState) (c : CircuitData) (p : String)
    (hp : c.parent_circuit_id = some p) (hpe : p ≠ "") :
    (release_candidate (add_circuit st c) c).system_hierarchy =
      hier_remove (hier_add st.system_hierarchy p c.circuit_id) p c.circuit_id := by
  rw [release_candidate_of_grafted]
  simp only [add_circuit, hp, if_neg hpe]
  rw [if_pos (by rw [lookup_hier_add_self]; rfl)]

/-- The graft-then-release round trip keeps the hierarchy index free of the
candidate id provided it was free of it before the call. -/
theorem release_graft_hier (st : AnalyzerState) (c : CircuitData)
    (hfree : hier_id_free st.system_hierarchy c.circuit_id) :
    hier_id_free (release_candidate (add_circuit st c) c).system_hierarchy c.circuit_id := by
  rcases hp : c.parent_circuit_id with _ | p
  · rw [release_grafted_hier_none st c hp]
    exact hfree
  · by_cases hpe : p = ""
    · subst hpe
      rw [release_grafted_hier_empty st c hp]
      by_cases hg : (alist_lookup st.system_hierarchy "").isSome
      · rw [if_pos hg]
        intro q ls hls
        by_cases hq : q = ""
        · subst hq
          rw [lookup_hier_remove_self] at hls
          match he : alist_lookup st.system_hierarchy "" with
          | none => rw [he] at hls; simp at hls
          | some v =>
            rw [he] at hls
            simp only [Option.map_some', Option.some.injEq] at hls
            subst hls
            exact fun hmem => hfree "" v he (mem_eraseStr hmem)
        · rw [lookup_hier_remove_ne _ _ _ _ hq] at hls
          exact hfree q ls hls
      · rw [if_neg hg]
        exact hfree
    · rw [release_grafted_hier_truthy st c p hp hpe]
      intro q ls hls
      by_cases hq : q = p
      · subst hq
        rw [lookup_hier_remove_self, lookup_hier_add_self] at hls
        simp only [Option.map_some', Option.some.injEq] at hls
        subst hls
        have hold : c.circuit_id ∉ (alist_lookup st.system_hierarchy q).getD [] := by
          match he : alist_lookup st.system_hierarchy q with
          | none => simp
          | some v => simpa using hfree q v he
        rw [eraseStr_append_self hold]
        exact hold
      · rw [lookup_hier_remove_ne _ _ _ _ hq, lookup_hier_add_ne _ _ _ _ hq] at hls
        exact hfree q ls hls

/-! ## Claim C10: registry frame of validate -/

/-- C10.  `validate_system_constraints` restores the registry only for fresh
candidate ids: a candidate whose id collides with a persisted circuit P
destroys P (the graft overwrites it and the unconditional release deletes the
entry), while for a fresh id the registry mapping after the call equals the
mapping before it. -/
theorem validate_frame_only_fresh_ids_restored (st : AnalyzerState) (c : CircuitData)
    (hnd : keysNodup st.circuits) :
    (∀ P : CircuitData, alist_lookup st.circuits c.circuit_id = some P →
      alist_lookup (validate_system_constraints st c).2.circuits c.circuit_id = none) ∧
    (alist_lookup st.circuits c.circuit_id = none →
      (validate_system_constraints st c).2.circuits = st.circuits) := by
  constructor
  · intro P _
    exact release_graft_circuits st c hnd
  · intro hfresh
    show (release_candidate (add_circuit st c) c).circuits = st.circuits
    rw [release_candidate_of_grafted]
    show erase_key (dict_insert st.circuits c.circuit_id c) c.circuit_id = st.circuits
    rw [dict_insert_fresh _ hfresh, erase_key_append_fresh _ hfresh]

/-- Witness for C10: a collision with the persisted "X" deletes it; a fresh
candidate on the empty registry leaves the registry empty. -/
theorem validate_frame_only_fresh_ids_restored_witness :
    alist_lookup (validate_system_constraints (add_circuit emptyAnalyzer cXa) cXa).2.circuits
        cXa.circuit_id = none ∧
    (validate_system_constraints emptyAnalyzer cXa).2.circuits = emptyAnalyzer.circuits := by
  constructor
  · exact (validate_frame_only_fresh_ids_restored (add_circuit emptyAnalyzer cXa) cXa
      (by decide)).1 cXa (by decide)
  · exact (validate_frame_only_fresh_ids_restored emptyAnalyzer cXa (by decide)).2 (by decide)

/-! ## Claim C1: release on every exit path -/

/-- C1, counterexample.  With a persisted circuit "X" indexed under parent
"P", validating a candidate that reuses id "X" under the same parent leaves
"X" in the hierarchy index after the call: the graft appended a second
occurrence and the release removed only one.  The claim asserts the id is
absent from the index after any call, which is false here. -/
theorem release_leaves_stale_child_entry :
    (validate_system_constraints stC cX1).2.system_hierarchy = [("P", ["X"])] ∧
    cX1.circuit_id = "X" := by
  decide

/-- C1, amended.  After `validate_system_constraints` or
`generate_integration_report` returns or raises, the candidate id is absent
from the circuit registry unconditionally; it is absent from the hierarchy
index provided it did not occur in any child list before the call (in
particular whenever no persisted circuit shares the candidate's id).  The
release step executes on every exit path, including analyzer errors. -/
theorem release_on_every_exit_path (st : AnalyzerState) (c : CircuitData)
    (hnd : keysNodup st.circuits)
    (hfree : hier_id_free st.system_hierarchy c.circuit_id) :
    alist_lookup (validate_system_constraints st c).2.circuits c.circuit_id = none ∧
    hier_id_free (validate_system_constraints st c).2.system_hierarchy c.circuit_id ∧
    alist_lookup (generate_integration_report st c).2.circuits c.circuit_id = none ∧
    hier_id_free (generate_integration_report st c).2.system_hierarchy c.circuit_id := by
  have h1 : alist_lookup (validate_system_constraints st c).2.circuits c.circuit_id = none :=
    release_graft_circuits st c hnd
  have h2 : hier_id_free (validate_system_constraints st c).2.system_hierarchy c.circuit_id :=
    release_graft_hier st c hfree
  have hnd1 : keysNodup (validate_system_constraints st c).2.circuits := by
    show keysNodup (release_candidate (add_circuit st c) c).circuits
    rw [release_candidate_of_grafted]
    exact keysNodup_erase _ (keysNodup_insert _ _ hnd)
  refine ⟨h1, h2, ?_⟩
  cases hv : (validate_system_constraints st c).1 with
  | none =>
    have hst2 : (generate_integration_report st c).2 = (validate_system_constraints st c).2 := by
      simp only [generate_integration_report, hv]
    rw [hst2]
    exact ⟨h1, h2⟩
  | some constraints =>
    have hst2 : (generate_integration_report st c).2 =
        release_candidate (add_circuit (validate_system_constraints st c).2 c) c := by
      simp only [generate_integration_report, hv]
    rw [hst2]
    exact ⟨release_graft_circuits _ c hnd1, release_graft_hier _ c h2⟩

/-! ## Claim C6: idempotence of validate -/

theorem sumQ_perm {l1 l2 : List ℚ} (h : List.Perm l1 l2) : sumQ l1 = sumQ l2 :=
  h.foldl_eq' (fun x _ y _ z => by ring) 0

/-- The design current depends on the load list only up to permutation. -/
theorem design_current_perm {l1 l2 : List LoadData} (h : List.Perm l1 l2)
    (b : Bool) (hr : Option ℕ) :
    (calculate_load_current l1 b hr).design_current =
      (calculate_load_current l2 b hr).design_current := by
  have h1 := calc_fold_characterization b hr l1 0 0 0 []
  have h2 := calc_fold_characterization b hr l2 0 0 0 []
  simp only [calculate_load_current, h1, h2]
  rw [sumQ_perm ((h.filter is_continuous_load).map (base_current_of b hr)),
    sumQ_perm ((h.filter (fun l => !is_continuous_load l)).map (base_current_of b hr))]

theorem gather_child_loads_congr (c1 c2 : List (String × CircuitData))
    (h : ∀ k, alist_lookup c1 k = alist_lookup c2 k) :
    ∀ ids, gather_child_loads c1 ids = gather_child_loads c2 ids := by
  intro ids
  induction ids with
  | nil => rfl
  | cons i rest ih => simp only [gather_child_loads, h i, ih]

theorem gather_child_loads_perm (circs : List (String × CircuitData))
    {ids1 ids2 : List String} (h : List.Perm ids1 ids2) :
    List.Perm (gather_child_loads circs ids1) (gather_child_loads circs ids2) := by
  induction h with
  | nil => exact List.Perm.refl _
  | cons x h ih => exact List.Perm.append_left _ ih
  | swap x y l =>
    simp only [gather_child_loads]
    rw [← List.append_assoc, ← List.append_assoc]
    exact List.perm_append_comm.append_right _
  | trans h1 h2 ih1 ih2 => exact ih1.trans ih2

/-- Registry lookups agree before and after a graft/release/graft cycle. -/
theorem graft_release_graft_circuits_lookup (st : AnalyzerState) (c : CircuitData)
    (q : String) :
    alist_lookup (add_circuit (release_candidate (add_circuit st c) c) c).circuits q =
      alist_lookup (add_circuit st c).circuits q := by
  by_cases hq : q = c.circuit_id
  · rw [hq]
    show alist_lookup (dict_insert _ c.circuit_id c) c.circuit_id =
      alist_lookup (dict_insert _ c.circuit_id c) c.circuit_id
    rw [lookup_dict_insert_self, lookup_dict_insert_self]
  · show alist_lookup
      (dict_insert (release_candidate (add_circuit st c) c).circuits c.circuit_id c) q =
      alist_lookup (dict_insert st.circuits c.circuit_id c) q
    rw [lookup_dict_insert_ne _ _ _ _ hq, lookup_dict_insert_ne _ _ _ _ hq,
      release_candidate_of_grafted]
    show alist_lookup (erase_key (dict_insert st.circuits c.circuit_id c) c.circuit_id) q = _
    rw [lookup_erase_key_ne _ _ _ hq, lookup_dict_insert_ne _ _ _ _ hq]

theorem add_circuit_hier_truthy (st : AnalyzerState) (c : CircuitData) (p : String)
    (hp : c.parent_circuit_id = some p) (hpe : p ≠ "") :
    (add_circuit st c).system_hierarchy = hier_add st.system_hierarchy p c.circuit_id := by
  simp only [add_circuit, hp, if_neg hpe]

/-- For a truthy parent, the child lists before and after a
graft/release/graft cycle are permutations of one another at every key. -/
theorem graft_release_graft_hier_perm (st : AnalyzerState) (c : CircuitData) (p : String)
    (hp : c.parent_circuit_id = some p) (hpe : p ≠ "") (q : String) :
    List.Perm
      ((alist_lookup
        (add_circuit (release_candidate (add_circuit st c) c) c).system_hierarchy q).getD [])
      ((alist_lookup (add_circuit st c).system_hierarchy q).getD []) := by
  rw [add_circuit_hier_truthy _ c p hp hpe, add_circuit_hier_truthy _ c p hp hpe,
    release_grafted_hier_truthy st c p hp hpe]
  by_cases hq : q = p
  · subst hq
    rw [lookup_hier_add_self, lookup_hier_add_self, lookup_hier_remove_self,
      lookup_hier_add_self]
    simp only [Option.map_some', Option.getD_some]
    exact perm_eraseStr_append
      (List.mem_append.mpr (Or.inr (List.mem_singleton.mpr rfl)))
  · rw [lookup_hier_add_ne _ _ _ _ hq, lookup_hier_remove_ne _ _ _ _ hq,
      lookup_hier_add_ne _ _ _ _ hq]

/-- The parent check reads the state only through keyed registry lookups and
the multiset of child loads, so it is invariant under the relations above. -/
theorem parent_loading_check_congr (g1 g2 : AnalyzerState) (p : String) (pc : CircuitData)
    (hc : ∀ k, alist_lookup g1.circuits k = alist_lookup g2.circuits k)
    (hh : List.Perm ((alist_lookup g1.system_hierarchy p).getD [])
      ((alist_lookup g2.system_hierarchy p).getD [])) :
    parent_loading_check g1 p pc = parent_loading_check g2 p pc := by
  have hd : (calculate_load_current (gather_child_loads g1.circuits
      ((alist_lookup g1.system_hierarchy p).getD [])) true none).design_current =
    (calculate_load_current (gather_child_loads g2.circuits
      ((alist_lookup g2.system_hierarchy p).getD [])) true none).design_current := by
    rw [gather_child_loads_congr g1.circuits g2.circuits hc]
    exact design_current_perm (gather_child_loads_perm g2.circuits hh) true none
  simp only [parent_loading_check, hd]

theorem parent_constraints_congr (g1 g2 : AnalyzerState) (c : CircuitData)
    (hc : ∀ k, alist_lookup g1.circuits k = alist_lookup g2.circuits k)
    (hh : ∀ p, c.parent_circuit_id = some p → p ≠ "" →
      List.Perm ((alist_lookup g1.system_hierarchy p).getD [])
        ((alist_lookup g2.system_hierarchy p).getD [])) :
    parent_constraints g1 c = parent_constraints g2 c := by
  cases hp : c.parent_circuit_id with
  | none => simp only [parent_constraints, hp]
  | some p =>
    by_cases hpe : p = ""
    · simp only [parent_constraints, hp, if_pos hpe]
    · simp only [parent_constraints, hp, if_neg hpe, hc p]
      cases hl : alist_lookup g2.circuits p with
      | none => rfl
      | some pc =>
        show (match parent_loading_check g1 p pc with
            | none => none
            | some ck => some [ck]) =
          (match parent_loading_check g2 p pc with
            | none => none
            | some ck => some [ck])
        rw [parent_loading_check_congr g1 g2 p pc hc (hh p hp hpe)]

theorem validate_core_congr (g1 g2 : AnalyzerState) (c : CircuitData)
    (hpar : parent_constraints g1 c = parent_constraints g2 c) :
    validate_core g1 c = validate_core g2 c := by
  simp only [validate_core, hpar]

/-- C6.  `validate_system_constraints` is idempotent with respect to
repetition: with the registry unchanged by the caller between the calls, a
second validation of the same candidate returns the same list of
ConstraintChecks (same names, values, limits, margins, pass flags,
severities, recommendations, in the same order) — also when the candidate's
id collides with a persisted circuit, in which case the state differs but
only by a permutation of one child list and a re-ordered registry entry,
neither of which the checks observe. -/
theorem validate_idempotent_on_repetition (st : AnalyzerState) (c : CircuitData) :
    (validate_system_constraints ((validate_system_constraints st c).2) c).1 =
      (validate_system_constraints st c).1 := by
  show validate_core (add_circuit (release_candidate (add_circuit st c) c) c) c =
    validate_core (add_circuit st c) c
  apply validate_core_congr
  apply parent_constraints_congr
  · exact graft_release_graft_circuits_lookup st c
  · intro p hp hpe
    exact graft_release_graft_hier_perm st c p hp hpe p

/-- Witness for C1 on a fresh candidate "X" over a registry holding only the
parent "P" (the hierarchy index starts empty). -/
theorem release_on_every_exit_path_witness :
    alist_lookup (validate_system_constraints stF cX1).2.circuits cX1.circuit_id = none ∧
    hier_id_free (validate_system_constraints stF cX1).2.system_hierarchy cX1.circuit_id ∧
    alist_lookup (generate_integration_report stF cX1).2.circuits cX1.circuit_id = none ∧
    hier_id_free (generate_integration_report stF cX1).2.system_hierarchy cX1.circuit_id :=
  release_on_every_exit_path stF cX1 (by decide)
    (fun q ls hls => by simp [stF, emptyAnalyzer, add_circuit, cParent, alist_lookup] at hls)
